/-
  Verification of the cleaning/normalization pipeline and KPI aggregation
  engine of the analyst-reporting repository (src/clean.py, src/kpis.py),
  as a shallow embedding in Lean 4.

  Conventions of the embedding:
  * A pandas DataFrame is a record of a row count and a list of named
    columns (`DF`); a cell is a `Cell` (`na` models NaN / pd.NA / None /
    NaT uniformly — everything pandas `isna` counts as null).
  * pandas float arithmetic is modelled by `PFloat`: an exact rational
    together with the three IEEE-754 non-finite shapes (`nan`, `inf`,
    `neginf`).  Only the null / zero / sign structure of the claims is at
    stake, so rationals stand in for doubles; rounding is irrelevant to
    every statement below.
  * Timestamps are rational day counts since 1970-01-01 (pandas stores
    nanoseconds; the claims only need day- and month-resolution).
  * `pd.to_datetime`'s general calendar-string parser is a parameter
    (`gp`) of the functions that use it: the claims quantify over it.
-/
import Mathlib

namespace AnalystReporting

/-! ## Float model -/

/-- Model of a pandas float64 value: NaN, ±infinity, or a finite value
(represented exactly as a rational). -/
inductive PFloat where
  | nan : PFloat
  | inf : PFloat
  | neginf : PFloat
  | num : ℚ → PFloat
deriving DecidableEq, Repr

namespace PFloat

/-- pandas `isna` on a float cell: true exactly for NaN. -/
def isna : PFloat → Bool
  | nan => true
  | _ => false

/-- IEEE-754 structured addition. -/
def add : PFloat → PFloat → PFloat
  | nan, _ => nan
  | _, nan => nan
  | inf, neginf => nan
  | neginf, inf => nan
  | inf, _ => inf
  | _, inf => inf
  | neginf, _ => neginf
  | _, neginf => neginf
  | num a, num b => num (a + b)

/-- IEEE-754 structured negation. -/
def neg : PFloat → PFloat
  | nan => nan
  | inf => neginf
  | neginf => inf
  | num a => num (-a)

/-- IEEE-754 structured subtraction. -/
def sub (x y : PFloat) : PFloat := add x (neg y)

/-- IEEE-754 structured division.  Division of a nonzero finite value by
(positive) zero gives a signed infinity; 0/0 gives NaN.  (The zeros
produced by the sums in this pipeline are positive zeros.) -/
def div : PFloat → PFloat → PFloat
  | nan, _ => nan
  | _, nan => nan
  | inf, inf => nan
  | inf, neginf => nan
  | neginf, inf => nan
  | neginf, neginf => nan
  | inf, num b => if 0 ≤ b then inf else neginf
  | neginf, num b => if 0 ≤ b then neginf else inf
  | num _, inf => num 0
  | num _, neginf => num 0
  | num a, num b =>
      if b = 0 then (if a = 0 then nan else if 0 < a then inf else neginf)
      else num (a / b)

/-- pandas `Series.sum(skipna=True)`: fold IEEE addition over the
non-NaN entries, starting from 0 (so an empty or all-null column sums
to 0, as the pandas default `min_count=0` does). -/
def psum (l : List PFloat) : PFloat :=
  l.foldl (fun acc x => if x.isna then acc else add acc x) (num 0)

/-- A float cell that is finite or NaN (no infinities). -/
def finiteOrNa : PFloat → Prop
  | inf => False
  | neginf => False
  | _ => True

instance : DecidablePred finiteOrNa := by
  intro x; cases x <;> simp [finiteOrNa] <;> infer_instance

end PFloat

/-- Decidable equality for `Except`, used to evaluate closed equations
about fallible results. -/
instance instDecEqExcept {ε α : Type} [DecidableEq ε] [DecidableEq α] :
    DecidableEq (Except ε α)
  | Except.error e, Except.error f =>
      if h : e = f then isTrue (by rw [h])
      else isFalse (fun hc => h (Except.error.inj hc))
  | Except.error _, Except.ok _ => isFalse (fun hc => Except.noConfusion hc)
  | Except.ok _, Except.error _ => isFalse (fun hc => Except.noConfusion hc)
  | Except.ok a, Except.ok b =>
      if h : a = b then isTrue (by rw [h])
      else isFalse (fun hc => h (Except.ok.inj hc))

/-! ## Cells and DataFrames -/

/-- A cell of a table: null (`na`, covering NaN/pd.NA/None/NaT), a
numeric value, a timestamp (rational days since 1970-01-01), or a
string. -/
inductive Cell where
  | na : Cell
  | numv : ℚ → Cell
  | datev : ℚ → Cell
  | strv : String → Cell
deriving DecidableEq, Repr

namespace Cell

/-- pandas `isna` on a cell. -/
def isna : Cell → Bool
  | na => true
  | _ => false

end Cell

/-- A DataFrame: a row count and named columns (duplicate names may occur
transiently, exactly as in pandas after a many-to-one rename). -/
structure DF where
  nrows : ℕ
  cols : List (String × List Cell)
deriving DecidableEq, Repr

namespace DF

/-- Column names, in order. -/
def names (df : DF) : List String := df.cols.map Prod.fst

/-- `df[c]` — first column with the given name, if present. -/
def getCol (df : DF) (c : String) : Option (List Cell) :=
  (df.cols.find? (fun p => p.1 = c)).map Prod.snd

/-- Every column holds exactly `nrows` cells. -/
def WF (df : DF) : Prop := ∀ p ∈ df.cols, p.2.length = df.nrows

end DF

/-! ## Numeric parsing (`pd.to_numeric`, scope used by this pipeline) -/

/-- Python `str.strip()` / pandas `.str.strip()`: remove surrounding
whitespace. -/
def pyTrim (s : String) : String :=
  String.mk (((s.data.dropWhile Char.isWhitespace).reverse.dropWhile
    Char.isWhitespace).reverse)

/-- Digits of a decimal string, `none` if any character is not a digit
or the string is empty. -/
def digitsVal : List Char → Option ℕ
  | [] => none
  | l => l.foldl (fun acc c =>
      acc.bind (fun n => if c.isDigit then some (n * 10 + (c.toNat - 48)) else none))
      (some 0)

/-- Parse a decimal literal `[-]digits[.digits]` to an exact rational.
This models `pd.to_numeric(..., errors="coerce")` on the string shapes
this pipeline feeds it (plain integer and decimal literals); anything
else coerces to null. -/
def parseNumeric (s : String) : Option ℚ :=
  let t := pyTrim s
  let (sgn, body) :=
    match t.data with
    | '-' :: rest => ((-1 : ℚ), rest)
    | '+' :: rest => ((1 : ℚ), rest)
    | l => ((1 : ℚ), l)
  match (body.splitOn '.').map digitsVal with
  | [some n] => some (sgn * n)
  | [some n, some f] =>
      let k := ((body.splitOn '.').getD 1 []).length
      some (sgn * (n + (f : ℚ) / (10 : ℚ) ^ k))
  | _ => none

/-- `pd.to_numeric(cell, errors="coerce")` as a PFloat: null and
unparseable values coerce to NaN; numbers pass through.  (A datetime
cell in a numeric slot is outside the shapes this pipeline produces and
coerces to NaN here.) -/
def toNumericCell (c : Cell) : PFloat :=
  match c with
  | Cell.na => PFloat.nan
  | Cell.numv q => PFloat.num q
  | Cell.strv s => match parseNumeric s with
      | some q => PFloat.num q
      | none => PFloat.nan
  | Cell.datev _ => PFloat.nan

/-- Numeric view of a raw cell for the spreadsheet-serial range test
(`pd.to_numeric(s, errors="coerce")` followed by `.between`): `none`
where the coercion gives NaN. -/
def toNumericOpt (c : Cell) : Option ℚ :=
  match toNumericCell c with
  | PFloat.num q => some q
  | _ => none

/-! ## Civil-date arithmetic (days since 1970-01-01) -/

/-- Day number of a proleptic-Gregorian civil date, days since
1970-01-01 (the standard `days_from_civil` algorithm). -/
def daysFromCivil (y m d : ℤ) : ℤ :=
  let y' := if m ≤ 2 then y - 1 else y
  let era := (if 0 ≤ y' then y' else y' - 399) / 400
  let yoe := y' - era * 400
  let mp := if 2 < m then m - 3 else m + 9
  let doy := (153 * mp + 2) / 5 + d - 1
  let doe := yoe * 365 + yoe / 4 - yoe / 100 + doy
  era * 146097 + doe - 719468

/-- Civil date (year, month, day) of a day number (the standard
`civil_from_days` algorithm). -/
def civilFromDays (z : ℤ) : ℤ × ℤ × ℤ :=
  let z' := z + 719468
  let era := (if 0 ≤ z' then z' else z' - 146096) / 146097
  let doe := z' - era * 146097
  let yoe := (doe - doe / 1460 + doe / 36524 - doe / 146096) / 365
  let y := yoe + era * 400
  let doy := doe - (365 * yoe + yoe / 4 - yoe / 100)
  let mp := (5 * doy + 2) / 153
  let d := doy - (153 * mp + 2) / 5 + 1
  let m := if mp < 10 then mp + 3 else mp - 9
  (if m ≤ 2 then y + 1 else y, m, d)

/-- Month key of a timestamp: `year * 12 + month` of its calendar day —
the grouping key realised by `dt.to_period("M")`. -/
def monthKey (t : ℚ) : ℤ :=
  let c := civilFromDays ⌊t⌋
  c.1 * 12 + c.2.1

/-! ## Schema Normalizer (src/clean.py) -/

/-- A word character in the sense of the regex `\w` (ASCII scope). -/
def isWordChar (c : Char) : Bool := c.isAlphanum || c = '_'

/-- Collapse runs of underscores to a single underscore
(`re.sub(r"_+", "_", s)`). -/
def squeezeU : List Char → List Char
  | [] => []
  | [c] => [c]
  | c :: d :: rest =>
      if c = '_' && d = '_' then squeezeU (d :: rest)
      else c :: squeezeU (d :: rest)

/-- Strip leading and trailing underscores (`s.strip("_")`). -/
def stripU (l : List Char) : List Char :=
  ((l.dropWhile (· = '_')).reverse.dropWhile (· = '_')).reverse

/-- `_snake` from src/clean.py: trim, replace every run of non-word
characters by one underscore, collapse underscore runs, lowercase,
strip leading/trailing underscores. -/
def snake (s : String) : String :=
  let l₁ := (pyTrim s).data
  let l₂ := l₁.map (fun c => if isWordChar c then c else '_')
  let l₃ := (squeezeU l₂).map Char.toLower
  String.mk (stripU l₃)

/-- `DEFAULT_ALIASES` from src/clean.py, in source order. -/
def defaultAliases : List (String × String) :=
  [("date", "date"), ("month", "date"), ("period", "date"),
   ("transaction_date", "date"), ("order_date", "date"),
   ("revenue", "revenue"), ("sales", "revenue"), ("total_sales", "revenue"),
   ("amount", "revenue"), ("net_sales", "revenue"),
   ("cost", "cost"), ("cogs", "cost"), ("total_cost", "cost"),
   ("units", "units"), ("qty", "units"), ("quantity", "units"),
   ("region", "region"), ("state", "region"),
   ("product", "product"), ("sku", "product"), ("category", "product")]

/-- `REQUIRED` from src/clean.py. -/
def required : List String := ["date", "revenue"]

/-- Dict lookup in an alias table (keys are unique in a Python dict;
modelled as first match in an association list). -/
def aliasLookup (al : List (String × String)) (c : String) : Option String :=
  (al.find? (fun p => p.1 = c)).map Prod.snd

/-- `standardise_columns`: copy the frame and snake-case every column
name. -/
def standardiseColumns (df : DF) : DF :=
  ⟨df.nrows, df.cols.map (fun p => (snake p.1, p.2))⟩

/-- `aliases or DEFAULT_ALIASES` — Python truthiness: `None` and the
empty dict both fall back to the default table. -/
def resolveAliases (al : Option (List (String × String))) : List (String × String) :=
  match al with
  | none => defaultAliases
  | some m => if m = [] then defaultAliases else m

/-- The rename pass of `apply_aliases` (`df.rename(columns=ren)`):
every column whose (already snake-cased) name is an alias key gets its
canonical name; others pass through. -/
def renameCols (df : DF) (al : Option (List (String × String))) :
    List (String × List Cell) :=
  let aliases := resolveAliases al
  df.cols.map (fun p => ((aliasLookup aliases p.1).getD p.1, p.2))

/-- The exception raised by the duplicate-merging branch of
`apply_aliases` (the payload string is a model label, not the exact
Python message). -/
def dupLabelsError : String :=
  "apply_aliases: selecting a duplicated label returns a DataFrame"

/-- `apply_aliases`: rename, then the duplicate branch (lines 73-86 of
src/clean.py).  When duplicates appear the branch RAISES instead of
merging: `cols = [c for c in df.columns if c == col]` is a list of
identical label strings, so `df[cols[0]]` selects a multi-column
DataFrame (duplicated-label selection), `s.combine_first(df[k])` is
then `DataFrame.combine_first` over duplicated labels, which fails
inside `DataFrame.combine` (`this[col]` is again a DataFrame with no
`.dtype`), and `out[col] = s` could not assign a multi-column frame to
one column in any case.  The intended first-non-null merge documented
by the comment at lines 70-72 is never reached; the whole branch is an
error path, modelled as `Except.error`. -/
def applyAliases (df : DF) (al : Option (List (String × String))) :
    Except String DF :=
  let renamed := renameCols df al
  if (renamed.map Prod.fst).Nodup then Except.ok ⟨df.nrows, renamed⟩
  else Except.error dupLabelsError

/-! ## Type Coercer (src/clean.py, `coerce_types`) -/

/-- Timestamp (days since 1970-01-01) of the spreadsheet epoch
1899-12-30. -/
def excelEpoch : ℤ := daysFromCivil 1899 12 30

/-- The general calendar parse of one raw date cell: `gp` is a
parameter modelling `pd.to_datetime(..., errors="coerce")`, returning a
timestamp or null (NaT). -/
def generalDate (gp : Cell → Option ℚ) (c : Cell) : Cell :=
  match gp c with
  | some t => Cell.datev t
  | none => Cell.na

/-- One cell of the date column under the dual-path parse of
`coerce_types`: the general calendar parse, overridden by the
spreadsheet-serial reinterpretation exactly where the numeric view of
the raw value lies in [20000, 60000]. -/
def coerceDateCell (gp : Cell → Option ℚ) (c : Cell) : Cell :=
  match toNumericOpt c with
  | some q =>
      if 20000 ≤ q ∧ q ≤ 60000 then Cell.datev ((excelEpoch : ℚ) + q)
      else generalDate gp c
  | none => generalDate gp c

/-- A column pandas would carry with `object` dtype in this pipeline:
one holding at least one string cell.  (An all-null object column is
extensionally a fixed point of the string-cleaning pass — `astype(str)`
turns its nulls into the marker strings "nan"/"None", which are mapped
straight back to null — so excluding it is harmless.) -/
def isObjCol (col : List Cell) : Bool :=
  col.any (fun c => match c with | Cell.strv _ => true | _ => false)

/-- `astype(str)` on one cell.  Non-string cells in an object column
are formatted by Python `str()`; the rational `toString` stands in for
that formatting, which no claim exercises. -/
def pyStr (c : Cell) : String :=
  match c with
  | Cell.na => "nan"
  | Cell.strv s => s
  | Cell.numv q => toString q
  | Cell.datev t => toString t

/-- The null-marker set of `coerce_types`, matched exactly. -/
def nullMarkers : List String := ["", "nan", "None", "NULL", "null"]

/-- String cleaning of one object-column cell: stringify, trim, and
null out exact null-marker matches (lines 119-120 of src/clean.py). -/
def cleanObjCell (c : Cell) : Cell :=
  let t := pyTrim (pyStr c)
  if t ∈ nullMarkers then Cell.na else Cell.strv t

/-- Numeric coercion of one cell (`pd.to_numeric(..., errors="coerce")`
landing back in a column): parse failures become null. -/
def coerceNumCell (c : Cell) : Cell :=
  match toNumericCell c with
  | PFloat.num q => Cell.numv q
  | _ => Cell.na

/-- Pass 1 of `coerce_types` (lines 94-114): the dual-path parse of the
date column. -/
def dateStage (gp : Cell → Option ℚ) (cols : List (String × List Cell)) :
    List (String × List Cell) :=
  cols.map (fun p =>
    if p.1 = "date" then (p.1, p.2.map (coerceDateCell gp)) else p)

/-- Pass 2 of `coerce_types` (lines 116-120): string cleaning of every
object column except `date`. -/
def stringStage (cols : List (String × List Cell)) : List (String × List Cell) :=
  cols.map (fun p =>
    if p.1 ≠ "date" ∧ isObjCol p.2 = true then (p.1, p.2.map cleanObjCell) else p)

/-- Pass 3 of `coerce_types` (lines 122-125): numeric coercion of
`revenue`, `cost`, `units`. -/
def numericStage (cols : List (String × List Cell)) : List (String × List Cell) :=
  cols.map (fun p =>
    if p.1 ∈ (["revenue", "cost", "units"] : List String)
    then (p.1, p.2.map coerceNumCell) else p)

/-- `coerce_types`: date column first (dual-path parse), then string
cleaning of every object column except `date`, then numeric coercion of
`revenue`, `cost`, `units`. -/
def coerceTypes (gp : Cell → Option ℚ) (df : DF) : DF :=
  ⟨df.nrows, numericStage (stringStage (dateStage gp df.cols))⟩

/-! ## Validator (src/clean.py, `validate`) -/

/-- A single-quote character, for building the warning strings. -/
def sq : String := String.mk [Char.ofNat 39]

/-- Number of null cells of a column. -/
def naCount (col : List Cell) : ℕ := (col.filter Cell.isna).length

/-- `df[r].isna().mean() > 0.5` — strictly more than half the cells
null.  (On an empty column the pandas mean is NaN and the comparison is
false; `2 * 0 > 0` is false likewise.) -/
def naOverHalf (col : List Cell) : Bool := 2 * naCount col > col.length

/-- The required-field loop of `validate`, in required-field order. -/
def validateRequired : List String → DF → List String
  | [], _ => []
  | r :: rest, df =>
      (match df.getCol r with
       | none => ["Missing required column: " ++ sq ++ r ++ sq]
       | some col =>
           if naOverHalf col
           then ["Column " ++ sq ++ r ++ sq ++ " has >50% missing values"]
           else []) ++ validateRequired rest df

/-- `validate`: required-field warnings (date before revenue), then the
date-quality warning. -/
def validate (df : DF) : List String :=
  validateRequired required df ++
  (match df.getCol "date" with
   | some col =>
       if 0 < naCount col
       then ["Rows with unparseable dates: " ++ toString (naCount col)]
       else []
   | none => [])

/-- `CleanResult` from src/clean.py. -/
structure CleanResult where
  df : DF
  warnings : List String
deriving DecidableEq, Repr

/-- `clean`: the full pipeline — standardise, alias (which may raise
on duplicate-aliased columns; the exception propagates), coerce,
validate. -/
def clean (gp : Cell → Option ℚ) (dfRaw : DF)
    (al : Option (List (String × String))) : Except String CleanResult :=
  match applyAliases (standardiseColumns dfRaw) al with
  | Except.error e => Except.error e
  | Except.ok df₂ =>
      let df₃ := coerceTypes gp df₂
      Except.ok ⟨df₃, validate df₃⟩

/-! ## KPI Aggregator (src/kpis.py) -/

/-- Month key of a date-column cell, as `dt.to_period("M")` produces it:
null (NaT) dates map to a null month.  (After `coerce_types` the date
column holds only timestamps and nulls.) -/
def monthOfCell : Cell → Option ℤ
  | Cell.datev t => some (monthKey t)
  | _ => none

/-- The fact table after the preamble of `build_tables` (lines 23-35 of
src/kpis.py): month column added, missing dimension columns synthesized
as all-null, measures re-coerced, gross profit and per-row margin
derived. -/
structure Prep where
  n : ℕ
  month : List (Option ℤ)
  revenue : List PFloat
  cost : List PFloat
  units : List PFloat
  gross_profit : List PFloat
  margin : List PFloat
  region : List Cell
  product : List Cell
deriving Repr

/-- Lines 23-35 of `build_tables`.  Looking up the `revenue` column is
a bare `df["revenue"]` in the source, so its absence raises a KeyError,
modelled as `Except.error`; `cost`, `units`, `region`, `product` are
synthesized when absent (line 26-28), `revenue` is not. -/
def prepare (df : DF) : Except String Prep :=
  let naCol := List.replicate df.nrows Cell.na
  let month : List (Option ℤ) :=
    match df.getCol "date" with
    | some col => col.map monthOfCell
    | none => List.replicate df.nrows none
  let costC := (df.getCol "cost").getD naCol
  let unitsC := (df.getCol "units").getD naCol
  let regionC := (df.getCol "region").getD naCol
  let productC := (df.getCol "product").getD naCol
  match df.getCol "revenue" with
  | none => Except.error ("KeyError: " ++ sq ++ "revenue" ++ sq)
  | some rcol =>
      let revenue := rcol.map toNumericCell
      let cost := costC.map toNumericCell
      let units := unitsC.map toNumericCell
      let gp := List.zipWith PFloat.sub revenue cost
      let margin := List.zipWith PFloat.div gp revenue
      Except.ok ⟨df.nrows, month, revenue, cost, units, gp, margin, regionC, productC⟩

/-- Insertion into an ascending list of integers. -/
def insertAsc (x : ℤ) : List ℤ → List ℤ
  | [] => [x]
  | y :: rest => if x ≤ y then x :: y :: rest else y :: insertAsc x rest

/-- Ascending insertion sort. -/
def sortAsc (l : List ℤ) : List ℤ := l.foldr insertAsc []

/-- The group keys of `groupby("month", dropna=False)` followed by
`sort_values("month")`: distinct months ascending, with the null-month
group last (pandas places NaT last both in sorted groupby output and in
`sort_values`). -/
def monthKeys (ms : List (Option ℤ)) : List (Option ℤ) :=
  (sortAsc (ms.filterMap id).dedup).map some ++ (if none ∈ ms then [none] else [])

/-- Grouped `sum` of one measure: pandas `skipna` sum over the entries
whose key equals `k` (an empty or all-null group sums to 0). -/
def groupedSum (keys : List (Option ℤ)) (vals : List PFloat) (k : Option ℤ) : PFloat :=
  PFloat.psum ((keys.zip vals).filterMap (fun p => if p.1 = k then some p.2 else none))

/-- One row of the Trends table. -/
structure TrendRow where
  month : Option ℤ
  revenue : PFloat
  cost : PFloat
  gross_profit : PFloat
  units : PFloat
  margin : PFloat
deriving DecidableEq, Repr

/-- The Trends row of month `k`: grouped sums, and margin recomputed
post-aggregation as `gross_profit / revenue` (line 63 of src/kpis.py). -/
def trendRowOf (p : Prep) (k : Option ℤ) : TrendRow :=
  let rev := groupedSum p.month p.revenue k
  let gp := groupedSum p.month p.gross_profit k
  ⟨k, rev, groupedSum p.month p.cost k, gp, groupedSum p.month p.units k,
   PFloat.div gp rev⟩

/-- The Trends table (lines 53-63 of src/kpis.py). -/
def trendsOf (p : Prep) : List TrendRow := (monthKeys p.month).map (trendRowOf p)

/-- One row of the Variance table: the Trends row plus, per measure,
the `diff()` and `pct_change()` columns. -/
structure VarRow where
  base : TrendRow
  revenue_mom_abs : PFloat
  revenue_mom_pct : PFloat
  cost_mom_abs : PFloat
  cost_mom_pct : PFloat
  gross_profit_mom_abs : PFloat
  gross_profit_mom_pct : PFloat
  units_mom_abs : PFloat
  units_mom_pct : PFloat
  margin_mom_abs : PFloat
  margin_mom_pct : PFloat
deriving DecidableEq, Repr

/-- `Series.diff()` at one position: current minus previous. -/
def momAbs (cur prev : PFloat) : PFloat := PFloat.sub cur prev

/-- `Series.pct_change()` at one position: `cur / prev - 1`
(`fill_method=None`; a null or NaN-producing base yields NaN). -/
def momPct (cur prev : PFloat) : PFloat :=
  PFloat.sub (PFloat.div cur prev) (PFloat.num 1)

/-- A Variance row from a Trends row and its predecessor; the first row
has no predecessor, so every MoM column is null (`diff`/`pct_change`
shift a NaN into position 0). -/
def mkVarRow (cur : TrendRow) (prev : Option TrendRow) : VarRow :=
  match prev with
  | none =>
      ⟨cur, PFloat.nan, PFloat.nan, PFloat.nan, PFloat.nan, PFloat.nan,
       PFloat.nan, PFloat.nan, PFloat.nan, PFloat.nan, PFloat.nan⟩
  | some p =>
      ⟨cur,
       momAbs cur.revenue p.revenue, momPct cur.revenue p.revenue,
       momAbs cur.cost p.cost, momPct cur.cost p.cost,
       momAbs cur.gross_profit p.gross_profit, momPct cur.gross_profit p.gross_profit,
       momAbs cur.units p.units, momPct cur.units p.units,
       momAbs cur.margin p.margin, momPct cur.margin p.margin⟩

/-- Pair every Trends row with its predecessor. -/
def withPrev (l : List TrendRow) : List (TrendRow × Option TrendRow) :=
  l.zip (none :: l.map some)

/-- The Variance table (lines 66-69 of src/kpis.py). -/
def varianceOf (ts : List TrendRow) : List VarRow :=
  (withPrev ts).map (fun p => mkVarRow p.1 p.2)

/-- Distinct elements in first-occurrence order (`pd.unique` on group
keys). -/
def dedupFirst {α : Type} [DecidableEq α] : List α → List α
  | [] => []
  | c :: rest => c :: (dedupFirst rest).filter (fun x => x ≠ c)

/-- Order on optional month keys with null (NaT) last. -/
def monthLE (a b : Option ℤ) : Bool :=
  match a, b with
  | none, none => true
  | none, some _ => false
  | some _, none => true
  | some x, some y => x ≤ y

/-- Order used to sort a dimension column: strings lexicographic,
numbers by value, null last.  (pandas raises on mixed-type dimension
columns; the cross-constructor cases keep this total and are not
exercised.) -/
def cellKeyLE (a b : Cell) : Bool :=
  match a, b with
  | Cell.na, _ => b.isna
  | _, Cell.na => true
  | Cell.strv s, Cell.strv t => s ≤ t
  | Cell.numv x, Cell.numv y => x ≤ y
  | Cell.datev x, Cell.datev y => x ≤ y
  | Cell.numv _, _ => true
  | _, Cell.numv _ => false
  | Cell.datev _, _ => true
  | _, Cell.datev _ => false

/-- Lexicographic order on (month, dimension) group keys. -/
def pairLE (a b : Option ℤ × Cell) : Bool :=
  if a.1 = b.1 then cellKeyLE a.2 b.2 else monthLE a.1 b.1

/-- Insertion into a list sorted by `le`. -/
def insertBy {α : Type} (le : α → α → Bool) (x : α) : List α → List α
  | [] => [x]
  | y :: rest => if le x y then x :: y :: rest else y :: insertBy le x rest

/-- Insertion sort by `le`. -/
def sortBy {α : Type} (le : α → α → Bool) (l : List α) : List α :=
  l.foldr (insertBy le) []

/-- One row of a Drilldown table. -/
structure DrillRow where
  month : Option ℤ
  dim : Cell
  revenue : PFloat
  gross_profit : PFloat
deriving DecidableEq, Repr

/-- A Drilldown table (lines 72-82 of src/kpis.py): group by
(month, dimension) with `dropna=False`, sum revenue and gross profit,
sort by (month, dimension). -/
def drillOf (p : Prep) (dimcol : List Cell) : List DrillRow :=
  let keys := p.month.zip dimcol
  let uk := sortBy pairLE (dedupFirst keys)
  uk.map (fun k =>
    let sel := fun (vals : List PFloat) =>
      PFloat.psum ((keys.zip vals).filterMap
        (fun q => if q.1 = k then some q.2 else none))
    ⟨k.1, k.2, sel p.revenue, sel p.gross_profit⟩)

/-- The Summary table (lines 38-50 of src/kpis.py): metric names
paired with grand totals.  The margin guard is Python truthiness of the
revenue total — `pd.NA` exactly when the total is (floating) zero; the
scalar `pd.NA` is modelled, like NaN, by `PFloat.nan`. -/
def summaryOf (p : Prep) : List (String × PFloat) :=
  let rev := PFloat.psum p.revenue
  let gp := PFloat.psum p.gross_profit
  [("revenue", rev),
   ("cost", PFloat.psum p.cost),
   ("gross_profit", gp),
   ("margin", if rev = PFloat.num 0 then PFloat.nan else PFloat.div gp rev),
   ("units", PFloat.psum p.units),
   ("rows_loaded", PFloat.num p.n)]

/-- The five-table bundle returned by `build_tables`. -/
structure Tables where
  summary : List (String × PFloat)
  trends : List TrendRow
  variance : List VarRow
  byRegion : List DrillRow
  byProduct : List DrillRow
deriving DecidableEq, Repr

/-- `build_tables` from src/kpis.py. -/
def buildTables (df : DF) : Except String Tables :=
  (prepare df).map (fun p =>
    ⟨summaryOf p, trendsOf p, varianceOf (trendsOf p),
     drillOf p p.region, drillOf p p.product⟩)

/-- One row of a canonical cleaned fact table, the shape `clean` hands
to `build_tables`: an optional timestamp plus measure and dimension
cells. -/
structure FactRow where
  date : Option ℚ
  revenue : Cell
  cost : Cell
  units : Cell
  region : Cell
  product : Cell
deriving DecidableEq, Repr

/-- The date-column cell of a fact row (null date is NaT). -/
def dateCell (d : Option ℚ) : Cell := d.elim Cell.na Cell.datev

/-- The DataFrame of a list of fact rows, with the canonical column
set. -/
def factDF (rows : List FactRow) : DF :=
  ⟨rows.length,
   [("date", rows.map (fun r => dateCell r.date)),
    ("revenue", rows.map FactRow.revenue),
    ("cost", rows.map FactRow.cost),
    ("units", rows.map FactRow.units),
    ("region", rows.map FactRow.region),
    ("product", rows.map FactRow.product)]⟩

/-! ## Helper lemmas -/

theorem getCol_mem (df : DF) (c : String) (col : List Cell)
    (h : df.getCol c = some col) : (c, col) ∈ df.cols := by
  unfold DF.getCol at h
  cases hf : df.cols.find? (fun p => p.1 = c) with
  | none =>
      rw [hf] at h
      exact absurd h (by simp)
  | some p =>
      rw [hf] at h
      have h2 : p.2 = col := by simpa using h
      have hp : p.1 = c := by simpa using List.find?_some hf
      have hm := List.mem_of_find?_eq_some hf
      have hpc : p = (c, col) := Prod.ext hp h2
      rwa [hpc] at hm

theorem getCol_some_of_mem_names (df : DF) (c : String) (h : c ∈ df.names) :
    ∃ col, df.getCol c = some col := by
  unfold DF.names at h
  obtain ⟨p, hp, hpc⟩ := List.mem_map.mp h
  unfold DF.getCol
  cases hf : df.cols.find? (fun q => q.1 = c) with
  | none =>
      have hnone := List.find?_eq_none.mp hf p hp
      simp [hpc] at hnone
  | some q => exact ⟨q.2, rfl⟩

theorem find?_map_fst (f : String × List Cell → String × List Cell)
    (hf : ∀ p, (f p).1 = p.1) (cols : List (String × List Cell)) (c : String) :
    (cols.map f).find? (fun p => p.1 = c) =
      (cols.find? (fun p => p.1 = c)).map f := by
  induction cols with
  | nil => rfl
  | cons p rest ih =>
      simp only [List.map_cons, List.find?_cons, hf p]
      by_cases hpc : p.1 = c
      · simp [hpc]
      · simp [hpc, ih]

theorem find?_eq_some_of_mem_nodup (cols : List (String × List Cell))
    (c : String) (col : List Cell) (hmem : (c, col) ∈ cols)
    (hnd : (cols.map Prod.fst).Nodup) :
    cols.find? (fun p => p.1 = c) = some (c, col) := by
  induction cols with
  | nil => cases hmem
  | cons p rest ih =>
      simp only [List.map_cons, List.nodup_cons] at hnd
      rcases List.mem_cons.mp hmem with heq | hmem'
      · rw [← heq]
        simp [List.find?_cons]
      · have hpc : ¬(p.1 = c) := by
          intro h
          exact hnd.1 (h ▸ List.mem_map_of_mem Prod.fst hmem')
        simp only [List.find?_cons]
        simp [hpc]
        exact ih hmem' hnd.2

/-! ## Claim C2 — build_tables on empty input -/

/-- C2 counterexample: `build_tables` on a zero-row table with no
columns at all does raise — the source never synthesizes `revenue`,
and line 32 of src/kpis.py is a bare `df["revenue"]`, a KeyError. -/
theorem build_tables_no_columns_raises :
    buildTables ⟨0, ([] : List (String × List Cell))⟩ =
      Except.error ("KeyError: " ++ sq ++ "revenue" ++ sq) ∧
    ∀ t : Tables, buildTables ⟨0, ([] : List (String × List Cell))⟩ ≠ Except.ok t := by
  have h1 : buildTables ⟨0, ([] : List (String × List Cell))⟩ =
      Except.error ("KeyError: " ++ sq ++ "revenue" ++ sq) := rfl
  exact ⟨h1, fun t h => by rw [h1] at h; exact Except.noConfusion h⟩

/-- C2 (amended): for a zero-row fact table that does carry a
`revenue` column, `build_tables` does not raise and returns the
six-metric Summary scaffolding with zero/null values and empty Trends,
Variance and Drilldown tables. -/
theorem build_tables_empty_input (df : DF)
    (h0 : df.nrows = 0) (hall : ∀ p ∈ df.cols, p.2 = ([] : List Cell))
    (hrev : "revenue" ∈ df.names) :
    buildTables df = Except.ok
      ⟨[("revenue", PFloat.num 0), ("cost", PFloat.num 0),
        ("gross_profit", PFloat.num 0), ("margin", PFloat.nan),
        ("units", PFloat.num 0), ("rows_loaded", PFloat.num 0)],
       [], [], [], []⟩ := by
  obtain ⟨rcol, hrc⟩ := getCol_some_of_mem_names df "revenue" hrev
  have hrnil : rcol = [] := hall _ (getCol_mem df _ _ hrc)
  have hmonth : (match df.getCol "date" with
      | some col => col.map monthOfCell
      | none => List.replicate (0 : ℕ) none) = ([] : List (Option ℤ)) := by
    cases hd : df.getCol "date" with
    | none => rfl
    | some col =>
        have hc : col = [] := hall ("date", col) (getCol_mem df "date" col hd)
        rw [hc]
        rfl
  have hget : ∀ c, (df.getCol c).getD (List.replicate (0 : ℕ) Cell.na) = [] := by
    intro c
    cases hd : df.getCol c with
    | none => rfl
    | some col => exact hall (c, col) (getCol_mem df c col hd)
  have hprep : prepare df = Except.ok ⟨0, [], [], [], [], [], [], [], []⟩ := by
    simp only [prepare, hrc, hrnil, h0, hmonth, hget]
    rfl
  simp only [buildTables, hprep, Except.map]
  rfl

/-- C2 witness: the amended theorem applied to the concrete zero-row
two-column table. -/
theorem build_tables_empty_input_witness :
    (∀ p ∈ ([("date", []), ("revenue", [])] : List (String × List Cell)),
       p.2 = ([] : List Cell)) ∧
    ("revenue" ∈ (DF.mk 0 [("date", []), ("revenue", [])]).names) ∧
    buildTables ⟨0, [("date", []), ("revenue", [])]⟩ = Except.ok
      ⟨[("revenue", PFloat.num 0), ("cost", PFloat.num 0),
        ("gross_profit", PFloat.num 0), ("margin", PFloat.nan),
        ("units", PFloat.num 0), ("rows_loaded", PFloat.num 0)],
       [], [], [], []⟩ :=
  ⟨by decide, by decide,
   build_tables_empty_input ⟨0, [("date", []), ("revenue", [])]⟩ rfl
     (by decide) (by decide)⟩

/-! ## Claim C4 — spreadsheet-serial date recovery -/

theorem coerceDateCell_in_range (gp : Cell → Option ℚ) (c : Cell) (q : ℚ)
    (h : toNumericOpt c = some q) (hin : 20000 ≤ q ∧ q ≤ 60000) :
    coerceDateCell gp c = Cell.datev ((excelEpoch : ℚ) + q) := by
  unfold coerceDateCell
  rw [h]
  exact if_pos hin

theorem coerceDateCell_out_of_range (gp : Cell → Option ℚ) (c : Cell) (q : ℚ)
    (h : toNumericOpt c = some q) (hout : ¬(20000 ≤ q ∧ q ≤ 60000)) :
    coerceDateCell gp c = generalDate gp c := by
  unfold coerceDateCell
  rw [h]
  exact if_neg hout

/-- C4: in the Type Coercer, a date-column value whose numeric view
lies in [20000, 60000] is reinterpreted as a day count since
1899-12-30, overriding the general calendar parse for exactly those
rows; 44927 coerces to the civil date 2023-01-01, while 5 falls back to
the general parse. -/
theorem serial_date_recovery (gp : Cell → Option ℚ) :
    coerceDateCell gp (Cell.numv 44927) =
      Cell.datev ((daysFromCivil 2023 1 1 : ℤ) : ℚ) ∧
    civilFromDays (daysFromCivil 2023 1 1) = (2023, 1, 1) ∧
    coerceDateCell gp (Cell.numv 5) = generalDate gp (Cell.numv 5) ∧
    ∀ c : Cell, ∀ q : ℚ, toNumericOpt c = some q →
      ((20000 ≤ q ∧ q ≤ 60000 →
          coerceDateCell gp c = Cell.datev ((excelEpoch : ℚ) + q)) ∧
       (¬(20000 ≤ q ∧ q ≤ 60000) →
          coerceDateCell gp c = generalDate gp c)) := by
  refine ⟨?_, by decide, ?_, ?_⟩
  · rw [coerceDateCell_in_range gp (Cell.numv 44927) 44927 rfl (by norm_num)]
    have e1 : excelEpoch = -25569 := by decide
    have e2 : daysFromCivil 2023 1 1 = 19358 := by decide
    rw [e1, e2]
    norm_num
  · exact coerceDateCell_out_of_range gp _ 5 rfl (by norm_num)
  · intro c q h
    exact ⟨fun hin => coerceDateCell_in_range gp c q h hin,
           fun hout => coerceDateCell_out_of_range gp c q h hout⟩

/-- C4 witness: the range law applied with a trivial general parser at
the in-range serial 30000. -/
theorem serial_date_recovery_witness :
    toNumericOpt (Cell.numv 30000) = some 30000 ∧
    ((20000 ≤ (30000 : ℚ) ∧ (30000 : ℚ) ≤ 60000 →
        coerceDateCell (fun _ => none) (Cell.numv 30000) =
          Cell.datev ((excelEpoch : ℚ) + 30000)) ∧
     (¬(20000 ≤ (30000 : ℚ) ∧ (30000 : ℚ) ≤ 60000) →
        coerceDateCell (fun _ => none) (Cell.numv 30000) =
          generalDate (fun _ => none) (Cell.numv 30000))) :=
  ⟨rfl, (serial_date_recovery (fun _ => none)).2.2.2 (Cell.numv 30000) 30000 rfl⟩

/-! ## Claim C6 — validator on revenue-present / date-absent tables -/

/-- C6 counterexample: with `revenue` present but more than half null
and `date` absent, `validate` returns two warnings, not exactly one. -/
theorem validate_missing_date_cx :
    validate ⟨1, [("revenue", [Cell.na])]⟩ =
      ["Missing required column: " ++ sq ++ "date" ++ sq,
       "Column " ++ sq ++ "revenue" ++ sq ++ " has >50% missing values"] ∧
    (validate ⟨1, [("revenue", [Cell.na])]⟩).length ≠ 1 := by
  constructor <;> decide

/-- C6 (amended): `validate` is a total function to a warning list,
required-field checks first in the order date then revenue, then the
date-quality check; with `revenue` present, `date` absent, and the
revenue column at most half null, the list is exactly the single
missing-date warning. -/
theorem validate_missing_date_amended (df : DF) (rcol : List Cell)
    (hd : df.getCol "date" = none) (hr : df.getCol "revenue" = some rcol)
    (hna : 2 * naCount rcol ≤ rcol.length) :
    validate df = ["Missing required column: " ++ sq ++ "date" ++ sq] := by
  have h1 : naOverHalf rcol = false := by
    simp only [naOverHalf, decide_eq_false_iff_not]
    omega
  simp [validate, required, validateRequired, hd, hr, h1]

/-- C6 witness: the amended theorem at a one-row table with a non-null
revenue column and no date column. -/
theorem validate_missing_date_witness :
    (DF.getCol ⟨1, [("revenue", [Cell.numv 5])]⟩ "date" = none) ∧
    (DF.getCol ⟨1, [("revenue", [Cell.numv 5])]⟩ "revenue" = some [Cell.numv 5]) ∧
    2 * naCount [Cell.numv 5] ≤ [Cell.numv 5].length ∧
    validate ⟨1, [("revenue", [Cell.numv 5])]⟩ =
      ["Missing required column: " ++ sq ++ "date" ++ sq] :=
  ⟨by decide, by decide, by decide,
   validate_missing_date_amended ⟨1, [("revenue", [Cell.numv 5])]⟩ [Cell.numv 5]
     (by decide) (by decide) (by decide)⟩

/-! ## Claim C7 — string trimming and null markers -/

/-- C7 counterexample: null-marker matching is exact, not
case-insensitive — the values "Null" and "NONE" pass through the Type
Coercer unchanged instead of becoming null as the claim states. -/
theorem string_cleaning_cx :
    coerceTypes (fun _ => none)
        ⟨2, [("region", [Cell.strv "Null", Cell.strv "NONE"])]⟩ =
      ⟨2, [("region", [Cell.strv "Null", Cell.strv "NONE"])]⟩ ∧
    (Cell.strv "Null" ≠ Cell.na) ∧ (Cell.strv "NONE" ≠ Cell.na) := by
  refine ⟨by decide, by decide, by decide⟩

/-- C7 (amended): every object (text) column other than `date` — and
not subsequently overwritten by the numeric pass, i.e. not named
revenue/cost/units — is trimmed of surrounding whitespace, and a value
becomes null exactly when its trimmed form is one of the five literal
markers "", "nan", "None", "NULL", "null"; matching is exact, so
"NULL" nulls out while "Null" and "NONE" survive. -/
theorem string_cleaning_amended (gp : Cell → Option ℚ) (df : DF) (c : String)
    (col : List Cell) (hmem : (c, col) ∈ df.cols) (hnd : df.names.Nodup)
    (hdate : c ≠ "date") (hnum : c ∉ (["revenue", "cost", "units"] : List String))
    (hobj : isObjCol col = true) :
    (coerceTypes gp df).getCol c = some (col.map cleanObjCell) ∧
    (∀ s : String, cleanObjCell (Cell.strv s) =
       if pyTrim s ∈ nullMarkers then Cell.na else Cell.strv (pyTrim s)) ∧
    cleanObjCell (Cell.strv "NULL") = Cell.na ∧
    cleanObjCell (Cell.strv "Null") = Cell.strv "Null" ∧
    cleanObjCell (Cell.strv "NONE") = Cell.strv "NONE" := by
  refine ⟨?_, fun s => rfl, by decide, by decide, by decide⟩
  have hfind : df.cols.find? (fun p => p.1 = c) = some (c, col) :=
    find?_eq_some_of_mem_nodup df.cols c col hmem hnd
  have h1 : ∀ p : String × List Cell,
      ((if p.1 = "date" then (p.1, p.2.map (coerceDateCell gp)) else p)).1 = p.1 := by
    intro p
    by_cases h : p.1 = "date" <;> simp [h]
  have h2 : ∀ p : String × List Cell,
      ((if p.1 ≠ "date" ∧ isObjCol p.2 = true
        then (p.1, p.2.map cleanObjCell) else p)).1 = p.1 := by
    intro p
    by_cases h : p.1 ≠ "date" ∧ isObjCol p.2 = true <;> simp [h]
  have h3 : ∀ p : String × List Cell,
      ((if p.1 ∈ (["revenue", "cost", "units"] : List String)
        then (p.1, p.2.map coerceNumCell) else p)).1 = p.1 := by
    intro p
    by_cases h : p.1 ∈ (["revenue", "cost", "units"] : List String) <;> simp [h]
  have hor : ¬(c = "revenue" ∨ c = "cost" ∨ c = "units") := by simpa using hnum
  unfold coerceTypes DF.getCol numericStage stringStage dateStage
  rw [find?_map_fst _ h3, find?_map_fst _ h2, find?_map_fst _ h1, hfind]
  simp [hdate, hor, hobj]

/-! ## Claim C9 — Schema Normalizer idempotence -/

/-- The canonical semantic field names. -/
def canonicalFields : List String :=
  ["date", "revenue", "cost", "units", "region", "product"]

/-- The Schema Normalizer stage: `standardise_columns` followed by
`apply_aliases` with the default alias table (fallible: the alias pass
raises on duplicate-aliased columns). -/
def normalizeSchema (df : DF) : Except String DF :=
  applyAliases (standardiseColumns df) none

theorem snake_canonical {n : String} (h : n ∈ canonicalFields) : snake n = n := by
  simp only [canonicalFields, List.mem_cons, List.mem_singleton,
    List.not_mem_nil, or_false] at h
  rcases h with rfl | rfl | rfl | rfl | rfl | rfl <;> decide

theorem aliasApply_canonical {n : String} (h : n ∈ canonicalFields) :
    (aliasLookup defaultAliases n).getD n = n := by
  simp only [canonicalFields, List.mem_cons, List.mem_singleton,
    List.not_mem_nil, or_false] at h
  rcases h with rfl | rfl | rfl | rfl | rfl | rfl <;> decide

theorem standardise_canonical (d : DF)
    (hd : ∀ n ∈ d.names, n ∈ canonicalFields) : standardiseColumns d = d := by
  unfold standardiseColumns
  cases d with
  | mk n cols =>
      simp only [DF.mk.injEq, true_and]
      have : ∀ p ∈ cols, (snake p.1, p.2) = p := by
        intro p hp
        have h1 : p.1 ∈ canonicalFields :=
          hd p.1 (List.mem_map_of_mem Prod.fst hp)
        rw [snake_canonical h1]
      rw [List.map_congr_left this]
      exact List.map_id' cols

theorem rename_canonical (d : DF)
    (hd : ∀ n ∈ d.names, n ∈ canonicalFields) : renameCols d none = d.cols := by
  unfold renameCols resolveAliases
  have : ∀ p ∈ d.cols, ((aliasLookup defaultAliases p.1).getD p.1, p.2) = p := by
    intro p hp
    have h1 : p.1 ∈ canonicalFields := hd p.1 (List.mem_map_of_mem Prod.fst hp)
    rw [aliasApply_canonical h1]
  rw [List.map_congr_left this]
  exact List.map_id' d.cols

/-- C9: on a table whose column names are already canonical, the
Schema Normalizer (snake-casing then default aliasing) is idempotent:
running it on its own result changes nothing.  Since the alias pass
can raise (on duplicated canonical names), a second application is the
Kleisli composite — and on the error path the exception of the first
application propagates unchanged, so both sides raise identically;
on a duplicate-free canonical table the normalizer is the identity. -/
theorem normalizer_idempotent (df : DF)
    (h : ∀ n ∈ df.names, n ∈ canonicalFields) :
    (normalizeSchema df).bind normalizeSchema = normalizeSchema df ∧
    (df.names.Nodup → normalizeSchema df = Except.ok df) := by
  by_cases hnd : (df.cols.map Prod.fst).Nodup
  · have hok : normalizeSchema df = Except.ok df := by
      unfold normalizeSchema
      rw [standardise_canonical df h]
      unfold applyAliases
      rw [rename_canonical df h]
      simp only [hnd, if_true]
    constructor
    · rw [hok]
      show normalizeSchema df = Except.ok df
      exact hok
    · intro _
      exact hok
  · have herr : normalizeSchema df = Except.error dupLabelsError := by
      unfold normalizeSchema
      rw [standardise_canonical df h]
      unfold applyAliases
      rw [rename_canonical df h]
      simp only [hnd, if_false]
    constructor
    · rw [herr]
      rfl
    · intro hn
      exact absurd hn hnd

/-- C9 witness: the idempotence law at a concrete canonical table. -/
theorem normalizer_idempotent_witness :
    (∀ n ∈ (DF.mk 1 [("date", [Cell.na]), ("revenue", [Cell.numv 1])]).names,
       n ∈ canonicalFields) ∧
    ((normalizeSchema ⟨1, [("date", [Cell.na]), ("revenue", [Cell.numv 1])]⟩).bind
        normalizeSchema =
      normalizeSchema ⟨1, [("date", [Cell.na]), ("revenue", [Cell.numv 1])]⟩ ∧
     ((DF.mk 1 [("date", [Cell.na]), ("revenue", [Cell.numv 1])]).names.Nodup →
        normalizeSchema ⟨1, [("date", [Cell.na]), ("revenue", [Cell.numv 1])]⟩ =
          Except.ok ⟨1, [("date", [Cell.na]), ("revenue", [Cell.numv 1])]⟩)) :=
  ⟨by decide,
   normalizer_idempotent ⟨1, [("date", [Cell.na]), ("revenue", [Cell.numv 1])]⟩
     (by decide)⟩

/-! ## Claim C5 — duplicate-alias merging -/

/-- C5: evidence that the duplicate-merge branch is a code bug.  At
the documented Sales/Revenue example — two source columns both aliased
to `revenue` — `apply_aliases` raises instead of producing the merged
column [10, 20, 30] that the spec and the comment at lines 70-72 of
src/clean.py describe: with duplicated labels `df[cols[0]]` is a
multi-column DataFrame, so the `combine_first` loop and the
`out[col] = s` assignment both fail. -/
theorem alias_merge_raises :
    applyAliases ⟨3, [("sales", [Cell.numv 10, Cell.na, Cell.numv 30]),
                      ("revenue", [Cell.na, Cell.numv 20, Cell.na])]⟩ none =
      Except.error dupLabelsError ∧
    ∀ d : DF,
      applyAliases ⟨3, [("sales", [Cell.numv 10, Cell.na, Cell.numv 30]),
                        ("revenue", [Cell.na, Cell.numv 20, Cell.na])]⟩ none ≠
        Except.ok d := by
  have h1 : applyAliases ⟨3, [("sales", [Cell.numv 10, Cell.na, Cell.numv 30]),
      ("revenue", [Cell.na, Cell.numv 20, Cell.na])]⟩ none =
      Except.error dupLabelsError := by decide
  exact ⟨h1, fun d h => by rw [h1] at h; exact Except.noConfusion h⟩

/-- C7 witness: the amended string-cleaning law at a concrete
two-row region column. -/
theorem string_cleaning_amended_witness :
    (("region", [Cell.strv " x ", Cell.na]) ∈
       (DF.mk 2 [("region", [Cell.strv " x ", Cell.na])]).cols) ∧
    isObjCol [Cell.strv " x ", Cell.na] = true ∧
    ((coerceTypes (fun _ => none) ⟨2, [("region", [Cell.strv " x ", Cell.na])]⟩).getCol
        "region" = some ([Cell.strv " x ", Cell.na].map cleanObjCell) ∧
     (∀ s : String, cleanObjCell (Cell.strv s) =
        if pyTrim s ∈ nullMarkers then Cell.na else Cell.strv (pyTrim s)) ∧
     cleanObjCell (Cell.strv "NULL") = Cell.na ∧
     cleanObjCell (Cell.strv "Null") = Cell.strv "Null" ∧
     cleanObjCell (Cell.strv "NONE") = Cell.strv "NONE") :=
  ⟨by decide, by decide,
   string_cleaning_amended (fun _ => none)
     ⟨2, [("region", [Cell.strv " x ", Cell.na])]⟩ "region"
     [Cell.strv " x ", Cell.na] (by decide) (by decide) (by decide)
     (by decide) (by decide)⟩

/-! ## Claims C3 and C8 — Variance table laws -/

/-- `pct_change` against a NaN base is NaN. -/
theorem momPct_nan_base (a : PFloat) : momPct a PFloat.nan = PFloat.nan := by
  cases a <;> rfl

/-- `pct_change` of 0 against a (floating) zero base is NaN (0/0). -/
theorem momPct_zero_zero :
    momPct (PFloat.num 0) (PFloat.num 0) = PFloat.nan := by decide

/-- `pct_change` of a nonzero value against a zero base is a signed
infinity, not null. -/
theorem momPct_zero_base (c : ℚ) (hc : ¬(c = 0)) :
    momPct (PFloat.num c) (PFloat.num 0) =
      (if 0 < c then PFloat.inf else PFloat.neginf) := by
  show PFloat.sub
      (if (0 : ℚ) = 0
       then (if c = 0 then PFloat.nan else if 0 < c then PFloat.inf else PFloat.neginf)
       else PFloat.num (c / 0)) (PFloat.num 1) =
    (if 0 < c then PFloat.inf else PFloat.neginf)
  rw [if_pos rfl, if_neg hc]
  by_cases h : 0 < c
  · rw [if_pos h]
    rfl
  · rw [if_neg h]
    rfl

/-- The null/zero-base law for one `pct_change` cell. -/
def pctLaw (curv prevv pct : PFloat) : Prop :=
  (prevv = PFloat.nan → pct = PFloat.nan) ∧
  (prevv = PFloat.num 0 → curv = PFloat.num 0 → pct = PFloat.nan) ∧
  (∀ c : ℚ, ¬(c = 0) → prevv = PFloat.num 0 → curv = PFloat.num c →
     pct = (if 0 < c then PFloat.inf else PFloat.neginf))

theorem pctLaw_momPct (a b : PFloat) : pctLaw a b (momPct a b) := by
  refine ⟨?_, ?_, ?_⟩
  · rintro rfl
    exact momPct_nan_base a
  · rintro rfl rfl
    exact momPct_zero_zero
  · intro c hc h1 h2
    rw [h1, h2]
    exact momPct_zero_base c hc

theorem varianceOf_get (ts : List TrendRow) (i : ℕ) (prev cur : TrendRow)
    (hp : ts.get? i = some prev) (hc : ts.get? (i + 1) = some cur) :
    (varianceOf ts).get? (i + 1) = some (mkVarRow cur (some prev)) := by
  unfold varianceOf withPrev
  rw [List.get?_map]
  have h2 : (none :: ts.map some).get? (i + 1) = some (some prev) := by
    show (ts.map some).get? i = some (some prev)
    rw [List.get?_map, hp]
    rfl
  have hz : (ts.zip (none :: ts.map some)).get? (i + 1) = some (cur, some prev) :=
    (List.get?_zip_eq_some _ _ _ _).mpr ⟨hc, h2⟩
  rw [hz]
  rfl

/-- C3 counterexample: a month with (floating) zero revenue followed by
a month with revenue 10 yields `revenue_mom_pct = +inf` in the second
Variance row — an infinity, not null, against a zero base. -/
theorem pct_change_zero_base_cx :
    (buildTables (factDF
        [⟨some 0, Cell.numv 0, Cell.na, Cell.na, Cell.na, Cell.na⟩,
         ⟨some 31, Cell.numv 10, Cell.na, Cell.na, Cell.na, Cell.na⟩])).map
      (fun t => t.variance.map (fun v => (v.base.revenue, v.revenue_mom_pct))) =
      Except.ok [(PFloat.num 0, PFloat.nan), (PFloat.num 10, PFloat.inf)] ∧
    PFloat.inf.isna = false ∧ ¬(PFloat.inf = PFloat.nan) := by
  refine ⟨?_, rfl, by decide⟩
  have hprep : prepare (factDF
      [⟨some 0, Cell.numv 0, Cell.na, Cell.na, Cell.na, Cell.na⟩,
       ⟨some 31, Cell.numv 10, Cell.na, Cell.na, Cell.na, Cell.na⟩]) =
      Except.ok ⟨2, [some 23641, some 23642], [PFloat.num 0, PFloat.num 10],
        [PFloat.nan, PFloat.nan], [PFloat.nan, PFloat.nan],
        [PFloat.nan, PFloat.nan], [PFloat.nan, PFloat.nan],
        [Cell.na, Cell.na], [Cell.na, Cell.na]⟩ := rfl
  have htr : trendsOf ⟨2, [some 23641, some 23642], [PFloat.num 0, PFloat.num 10],
        [PFloat.nan, PFloat.nan], [PFloat.nan, PFloat.nan],
        [PFloat.nan, PFloat.nan], [PFloat.nan, PFloat.nan],
        [Cell.na, Cell.na], [Cell.na, Cell.na]⟩ =
      [⟨some 23641, PFloat.num 0, PFloat.num 0, PFloat.num 0, PFloat.num 0, PFloat.nan⟩,
       ⟨some 23642, PFloat.num 10, PFloat.num 0, PFloat.num 0, PFloat.num 0, PFloat.num 0⟩] := by
    have hkeys : monthKeys [some 23641, some 23642] = [some 23641, some 23642] := by decide
    unfold trendsOf
    rw [hkeys]
    norm_num [trendRowOf, groupedSum, PFloat.psum, PFloat.add, PFloat.isna, PFloat.div,
      List.zip, List.zipWith, List.filterMap]
  unfold buildTables
  rw [hprep]
  show Except.ok ((varianceOf (trendsOf
      ⟨2, [some 23641, some 23642], [PFloat.num 0, PFloat.num 10],
       [PFloat.nan, PFloat.nan], [PFloat.nan, PFloat.nan],
       [PFloat.nan, PFloat.nan], [PFloat.nan, PFloat.nan],
       [Cell.na, Cell.na], [Cell.na, Cell.na]⟩)).map
        (fun v => (v.base.revenue, v.revenue_mom_pct))) = _
  rw [htr]
  rfl

/-- C3 (amended): in any Variance row, each `<col>_mom_pct` against a
null base is null, against a zero base it is null when the current
value is also zero, but a nonzero current value over a zero base
produces a signed infinity (never a raised division fault). -/
theorem pct_change_zero_null_base (ts : List TrendRow) (i : ℕ)
    (prev cur : TrendRow) (hp : ts.get? i = some prev)
    (hc : ts.get? (i + 1) = some cur) :
    ∃ v : VarRow, (varianceOf ts).get? (i + 1) = some v ∧
      v = mkVarRow cur (some prev) ∧
      pctLaw cur.revenue prev.revenue v.revenue_mom_pct ∧
      pctLaw cur.cost prev.cost v.cost_mom_pct ∧
      pctLaw cur.gross_profit prev.gross_profit v.gross_profit_mom_pct ∧
      pctLaw cur.units prev.units v.units_mom_pct ∧
      pctLaw cur.margin prev.margin v.margin_mom_pct := by
  refine ⟨mkVarRow cur (some prev), varianceOf_get ts i prev cur hp hc, rfl,
    ?_, ?_, ?_, ?_, ?_⟩ <;> exact pctLaw_momPct _ _

/-- C3 witness: the amended law at a concrete two-row Trends list. -/
theorem pct_change_zero_null_base_witness :
    ([⟨some 0, PFloat.num 0, PFloat.nan, PFloat.num 0, PFloat.num 0, PFloat.nan⟩,
      ⟨some 1, PFloat.num 10, PFloat.nan, PFloat.num 0, PFloat.num 0, PFloat.nan⟩]
        : List TrendRow).get? 0 =
      some ⟨some 0, PFloat.num 0, PFloat.nan, PFloat.num 0, PFloat.num 0, PFloat.nan⟩ ∧
    (∃ v : VarRow,
      (varianceOf
        [⟨some 0, PFloat.num 0, PFloat.nan, PFloat.num 0, PFloat.num 0, PFloat.nan⟩,
         ⟨some 1, PFloat.num 10, PFloat.nan, PFloat.num 0, PFloat.num 0, PFloat.nan⟩]).get? 1 =
          some v ∧
      v = mkVarRow
            ⟨some 1, PFloat.num 10, PFloat.nan, PFloat.num 0, PFloat.num 0, PFloat.nan⟩
            (some ⟨some 0, PFloat.num 0, PFloat.nan, PFloat.num 0, PFloat.num 0, PFloat.nan⟩) ∧
      pctLaw (PFloat.num 10) (PFloat.num 0) v.revenue_mom_pct ∧
      pctLaw PFloat.nan PFloat.nan v.cost_mom_pct ∧
      pctLaw (PFloat.num 0) (PFloat.num 0) v.gross_profit_mom_pct ∧
      pctLaw (PFloat.num 0) (PFloat.num 0) v.units_mom_pct ∧
      pctLaw PFloat.nan PFloat.nan v.margin_mom_pct) :=
  ⟨rfl,
   pct_change_zero_null_base
     [⟨some 0, PFloat.num 0, PFloat.nan, PFloat.num 0, PFloat.num 0, PFloat.nan⟩,
      ⟨some 1, PFloat.num 10, PFloat.nan, PFloat.num 0, PFloat.num 0, PFloat.nan⟩]
     0 _ _ rfl rfl⟩

/-- The preamble of `build_tables` applied to a canonical fact table,
row-wise (provably equal to `prepare (factDF rows)`). -/
def prepOfRows (rows : List FactRow) : Prep :=
  ⟨rows.length,
   rows.map (fun r => monthOfCell (dateCell r.date)),
   rows.map (fun r => toNumericCell r.revenue),
   rows.map (fun r => toNumericCell r.cost),
   rows.map (fun r => toNumericCell r.units),
   rows.map (fun r => PFloat.sub (toNumericCell r.revenue) (toNumericCell r.cost)),
   rows.map (fun r => PFloat.div
     (PFloat.sub (toNumericCell r.revenue) (toNumericCell r.cost))
     (toNumericCell r.revenue)),
   rows.map FactRow.region,
   rows.map FactRow.product⟩

theorem prepare_factDF (rows : List FactRow) :
    prepare (factDF rows) = Except.ok (prepOfRows rows) := by
  have hd : (factDF rows).getCol "date" =
      some (rows.map (fun r => dateCell r.date)) := rfl
  have hr : (factDF rows).getCol "revenue" = some (rows.map FactRow.revenue) := rfl
  have hc : (factDF rows).getCol "cost" = some (rows.map FactRow.cost) := rfl
  have hu : (factDF rows).getCol "units" = some (rows.map FactRow.units) := rfl
  have hg : (factDF rows).getCol "region" = some (rows.map FactRow.region) := rfl
  have hp : (factDF rows).getCol "product" = some (rows.map FactRow.product) := rfl
  unfold prepare
  rw [hd, hr, hc, hu, hg, hp]
  show Except.ok _ = Except.ok (prepOfRows rows)
  unfold prepOfRows
  simp only [Option.getD_some, List.map_map, List.zipWith_map, List.zipWith_same,
    Function.comp]
  rfl

/-- The five-table bundle at a canonical fact table, row-wise. -/
def tablesOfRows (rows : List FactRow) : Tables :=
  ⟨summaryOf (prepOfRows rows), trendsOf (prepOfRows rows),
   varianceOf (trendsOf (prepOfRows rows)),
   drillOf (prepOfRows rows) (prepOfRows rows).region,
   drillOf (prepOfRows rows) (prepOfRows rows).product⟩

theorem buildTables_factDF (rows : List FactRow) :
    buildTables (factDF rows) = Except.ok (tablesOfRows rows) := by
  unfold buildTables
  rw [prepare_factDF rows]
  rfl

theorem insertAsc_length (x : ℤ) (l : List ℤ) :
    (insertAsc x l).length = l.length + 1 := by
  induction l with
  | nil => rfl
  | cons y rest ih =>
      unfold insertAsc
      by_cases h : x ≤ y
      · rw [if_pos h]
        rfl
      · rw [if_neg h]
        simp [ih]

theorem sortAsc_length (l : List ℤ) : (sortAsc l).length = l.length := by
  induction l with
  | nil => rfl
  | cons x rest ih =>
      show (insertAsc x (sortAsc rest)).length = rest.length + 1
      rw [insertAsc_length, ih]

theorem monthKeys_ne_nil (ms : List (Option ℤ)) (h : ms ≠ []) :
    monthKeys ms ≠ [] := by
  unfold monthKeys
  intro hcontra
  rcases List.append_eq_nil.mp hcontra with ⟨h1, h2⟩
  have hno : none ∉ ms := by
    by_cases hn : none ∈ ms
    · rw [if_pos hn] at h2
      cases h2
    · exact hn
  have hsort : sortAsc (ms.filterMap id).dedup = [] := List.map_eq_nil.mp h1
  have hded : (ms.filterMap id).dedup = [] := by
    have := sortAsc_length (ms.filterMap id).dedup
    rw [hsort] at this
    exact List.length_eq_zero.mp this.symm
  have hfm : ms.filterMap id = [] := (List.dedup_eq_nil _).mp hded
  obtain ⟨x, hx⟩ := List.exists_mem_of_ne_nil ms h
  have hxn : x = none := by
    have := List.filterMap_eq_nil_iff.mp hfm x hx
    simpa using this
  exact hno (hxn ▸ hx)

/-- C8: for every non-empty input fact table, the first Variance row
has null values in every `_mom_abs` and `_mom_pct` column. -/
theorem variance_first_row_null (rows : List FactRow) (h : rows ≠ []) :
    ∃ T : Tables, buildTables (factDF rows) = Except.ok T ∧
    ∃ v : VarRow, ∃ rest : List VarRow, T.variance = v :: rest ∧
      v.revenue_mom_abs = PFloat.nan ∧ v.revenue_mom_pct = PFloat.nan ∧
      v.cost_mom_abs = PFloat.nan ∧ v.cost_mom_pct = PFloat.nan ∧
      v.gross_profit_mom_abs = PFloat.nan ∧ v.gross_profit_mom_pct = PFloat.nan ∧
      v.units_mom_abs = PFloat.nan ∧ v.units_mom_pct = PFloat.nan ∧
      v.margin_mom_abs = PFloat.nan ∧ v.margin_mom_pct = PFloat.nan := by
  refine ⟨tablesOfRows rows, buildTables_factDF rows, ?_⟩
  have hm : (prepOfRows rows).month ≠ [] := by
    show rows.map (fun r => monthOfCell (dateCell r.date)) ≠ []
    intro hc
    exact h (List.map_eq_nil.mp hc)
  obtain ⟨k, ks, hk⟩ :=
    List.exists_cons_of_ne_nil (monthKeys_ne_nil _ hm)
  have htr : trendsOf (prepOfRows rows) =
      trendRowOf (prepOfRows rows) k :: ks.map (trendRowOf (prepOfRows rows)) := by
    unfold trendsOf
    rw [hk]
    rfl
  refine ⟨mkVarRow (trendRowOf (prepOfRows rows) k) none,
          ((ks.map (trendRowOf (prepOfRows rows))).zip
            (some (trendRowOf (prepOfRows rows) k) ::
             (ks.map (trendRowOf (prepOfRows rows))).map some)).map
            (fun p => mkVarRow p.1 p.2),
          ?_, rfl, rfl, rfl, rfl, rfl, rfl, rfl, rfl, rfl, rfl⟩
  show varianceOf (trendsOf (prepOfRows rows)) = _
  rw [htr]
  rfl

/-- C8 witness: the first-row law at a concrete one-row fact table. -/
theorem variance_first_row_null_witness :
    ([(⟨none, Cell.na, Cell.na, Cell.na, Cell.na, Cell.na⟩ : FactRow)] ≠ []) ∧
    (∃ T : Tables,
      buildTables (factDF [⟨none, Cell.na, Cell.na, Cell.na, Cell.na, Cell.na⟩]) =
        Except.ok T ∧
      ∃ v : VarRow, ∃ rest : List VarRow, T.variance = v :: rest ∧
        v.revenue_mom_abs = PFloat.nan ∧ v.revenue_mom_pct = PFloat.nan ∧
        v.cost_mom_abs = PFloat.nan ∧ v.cost_mom_pct = PFloat.nan ∧
        v.gross_profit_mom_abs = PFloat.nan ∧ v.gross_profit_mom_pct = PFloat.nan ∧
        v.units_mom_abs = PFloat.nan ∧ v.units_mom_pct = PFloat.nan ∧
        v.margin_mom_abs = PFloat.nan ∧ v.margin_mom_pct = PFloat.nan) :=
  ⟨by simp,
   variance_first_row_null [⟨none, Cell.na, Cell.na, Cell.na, Cell.na, Cell.na⟩]
     (by simp)⟩

/-! ## Claim C1 — the margin law -/

theorem toNumericCell_finiteOrNa (c : Cell) : PFloat.finiteOrNa (toNumericCell c) := by
  cases c with
  | na => trivial
  | numv q => trivial
  | datev t => trivial
  | strv s =>
      show PFloat.finiteOrNa (match parseNumeric s with
        | some q => PFloat.num q
        | none => PFloat.nan)
      cases parseNumeric s <;> trivial

theorem sub_finiteOrNa (x y : PFloat) (hx : PFloat.finiteOrNa x)
    (hy : PFloat.finiteOrNa y) : PFloat.finiteOrNa (PFloat.sub x y) := by
  cases x <;> cases y <;> trivial

theorem psum_num (l : List PFloat) (h : ∀ x ∈ l, PFloat.finiteOrNa x) :
    ∃ q : ℚ, PFloat.psum l = PFloat.num q := by
  suffices haux : ∀ a : ℚ,
      ∃ q : ℚ, l.foldl (fun acc x => if x.isna then acc else PFloat.add acc x)
        (PFloat.num a) = PFloat.num q from haux 0
  induction l with
  | nil => exact fun a => ⟨a, rfl⟩
  | cons x xs ih =>
      intro a
      have hx := h x (List.mem_cons_self _ _)
      have ih2 := ih (fun y hy => h y (List.mem_cons_of_mem _ hy))
      cases x with
      | nan => simpa [List.foldl_cons, PFloat.isna] using ih2 a
      | num b => simpa [List.foldl_cons, PFloat.isna, PFloat.add] using ih2 (a + b)
      | inf => exact absurd hx (by trivial)
      | neginf => exact absurd hx (by trivial)

theorem groupedSum_num (keys : List (Option ℤ)) (vals : List PFloat)
    (k : Option ℤ) (h : ∀ x ∈ vals, PFloat.finiteOrNa x) :
    ∃ q : ℚ, groupedSum keys vals k = PFloat.num q := by
  unfold groupedSum
  refine psum_num _ ?_
  intro x hx
  obtain ⟨p, hp, hpe⟩ := List.mem_filterMap.mp hx
  have hx2 : x = p.2 := by
    by_cases hc : p.1 = k
    · rw [if_pos hc] at hpe
      simpa using hpe.symm
    · rw [if_neg hc] at hpe
      cases hpe
  have hmem : p.2 ∈ vals := by
    have hm2 := List.mem_zip hp
    exact hm2.2
  rw [hx2]
  exact h p.2 hmem

theorem prepOfRows_revenue_finite (rows : List FactRow) :
    ∀ x ∈ (prepOfRows rows).revenue, PFloat.finiteOrNa x := by
  intro x hx
  obtain ⟨r, _, hre⟩ := List.mem_map.mp hx
  rw [← hre]
  exact toNumericCell_finiteOrNa r.revenue

theorem prepOfRows_gp_finite (rows : List FactRow) :
    ∀ x ∈ (prepOfRows rows).gross_profit, PFloat.finiteOrNa x := by
  intro x hx
  obtain ⟨r, _, hre⟩ := List.mem_map.mp hx
  rw [← hre]
  exact sub_finiteOrNa _ _ (toNumericCell_finiteOrNa r.revenue)
    (toNumericCell_finiteOrNa r.cost)

theorem prepOfRows_cost_finite (rows : List FactRow) :
    ∀ x ∈ (prepOfRows rows).cost, PFloat.finiteOrNa x := by
  intro x hx
  obtain ⟨r, _, hre⟩ := List.mem_map.mp hx
  rw [← hre]
  exact toNumericCell_finiteOrNa r.cost

theorem prepOfRows_units_finite (rows : List FactRow) :
    ∀ x ∈ (prepOfRows rows).units, PFloat.finiteOrNa x := by
  intro x hx
  obtain ⟨r, _, hre⟩ := List.mem_map.mp hx
  rw [← hre]
  exact toNumericCell_finiteOrNa r.units

/-- C1 (amended): in every Trends row the aggregated revenue and gross
profit are finite numbers (never null — the skipna sums of coerced
cells), and margin is always the IEEE quotient `gross_profit /
revenue`: the finite ratio when revenue is nonzero, NaN (null) when
revenue and gross profit are both zero, but a signed infinity when
revenue is zero and gross profit nonzero.  The Summary margin is null
exactly when total revenue is zero and the finite ratio otherwise. -/
theorem margin_law_amended (rows : List FactRow) (T : Tables)
    (hT : buildTables (factDF rows) = Except.ok T) :
    (∀ t ∈ T.trends, ∃ q g : ℚ,
       t.revenue = PFloat.num q ∧ t.gross_profit = PFloat.num g ∧
       t.margin = PFloat.div t.gross_profit t.revenue ∧
       (¬(q = 0) → t.margin = PFloat.num (g / q)) ∧
       (q = 0 → g = 0 → t.margin = PFloat.nan) ∧
       (q = 0 → ¬(g = 0) →
          t.margin = (if 0 < g then PFloat.inf else PFloat.neginf))) ∧
    (∃ qr qc qg qu : ℚ,
       T.summary =
         [("revenue", PFloat.num qr), ("cost", PFloat.num qc),
          ("gross_profit", PFloat.num qg),
          ("margin", if qr = 0 then PFloat.nan else PFloat.num (qg / qr)),
          ("units", PFloat.num qu),
          ("rows_loaded", PFloat.num (rows.length : ℚ))]) := by
  have hTeq : T = tablesOfRows rows := by
    have h2 := hT.symm.trans (buildTables_factDF rows)
    exact Except.ok.inj h2
  subst hTeq
  constructor
  · intro t ht
    have ht2 : t ∈ (monthKeys (prepOfRows rows).month).map
        (trendRowOf (prepOfRows rows)) := ht
    obtain ⟨k, _, hk⟩ := List.mem_map.mp ht2
    obtain ⟨q, hq⟩ := groupedSum_num (prepOfRows rows).month
      (prepOfRows rows).revenue k (prepOfRows_revenue_finite rows)
    obtain ⟨g, hg⟩ := groupedSum_num (prepOfRows rows).month
      (prepOfRows rows).gross_profit k (prepOfRows_gp_finite rows)
    have hrev : t.revenue = PFloat.num q := by rw [← hk]; exact hq
    have hgp : t.gross_profit = PFloat.num g := by rw [← hk]; exact hg
    have hmar : t.margin = PFloat.div t.gross_profit t.revenue := by
      rw [← hk]
      rfl
    refine ⟨q, g, hrev, hgp, hmar, ?_, ?_, ?_⟩
    · intro hq0
      rw [hmar, hrev, hgp]
      show (if q = 0 then (if g = 0 then PFloat.nan
             else if 0 < g then PFloat.inf else PFloat.neginf)
            else PFloat.num (g / q)) = PFloat.num (g / q)
      rw [if_neg hq0]
    · intro hq0 hg0
      rw [hmar, hrev, hgp]
      show (if q = 0 then (if g = 0 then PFloat.nan
             else if 0 < g then PFloat.inf else PFloat.neginf)
            else PFloat.num (g / q)) = PFloat.nan
      rw [if_pos hq0, if_pos hg0]
    · intro hq0 hg0
      rw [hmar, hrev, hgp]
      show (if q = 0 then (if g = 0 then PFloat.nan
             else if 0 < g then PFloat.inf else PFloat.neginf)
            else PFloat.num (g / q)) =
           (if 0 < g then PFloat.inf else PFloat.neginf)
      rw [if_pos hq0, if_neg hg0]
  · obtain ⟨qr, hqr⟩ := psum_num (prepOfRows rows).revenue
      (prepOfRows_revenue_finite rows)
    obtain ⟨qc, hqc⟩ := psum_num (prepOfRows rows).cost
      (prepOfRows_cost_finite rows)
    obtain ⟨qg, hqg⟩ := psum_num (prepOfRows rows).gross_profit
      (prepOfRows_gp_finite rows)
    obtain ⟨qu, hqu⟩ := psum_num (prepOfRows rows).units
      (prepOfRows_units_finite rows)
    refine ⟨qr, qc, qg, qu, ?_⟩
    show summaryOf (prepOfRows rows) = _
    simp only [summaryOf]
    rw [hqr, hqc, hqg, hqu]
    have hlen : (prepOfRows rows).n = rows.length := rfl
    by_cases h0 : qr = 0
    · subst h0
      rw [if_pos rfl, if_pos rfl, hlen]
    · have hdiv : PFloat.div (PFloat.num qg) (PFloat.num qr) = PFloat.num (qg / qr) := by
        show (if qr = 0 then (if qg = 0 then PFloat.nan
               else if 0 < qg then PFloat.inf else PFloat.neginf)
              else PFloat.num (qg / qr)) = PFloat.num (qg / qr)
        rw [if_neg h0]
      rw [if_neg (fun hc => h0 (PFloat.num.inj hc)), if_neg h0, hlen, hdiv]

/-- C1 witness: the amended margin law at a concrete one-row table. -/
theorem margin_law_amended_witness :
    buildTables (factDF [⟨some 0, Cell.numv 10, Cell.numv 4, Cell.na, Cell.na, Cell.na⟩]) =
      Except.ok (tablesOfRows [⟨some 0, Cell.numv 10, Cell.numv 4, Cell.na, Cell.na, Cell.na⟩]) ∧
    ((∀ t ∈ (tablesOfRows [⟨some 0, Cell.numv 10, Cell.numv 4, Cell.na, Cell.na, Cell.na⟩]).trends,
        ∃ q g : ℚ,
        t.revenue = PFloat.num q ∧ t.gross_profit = PFloat.num g ∧
        t.margin = PFloat.div t.gross_profit t.revenue ∧
        (¬(q = 0) → t.margin = PFloat.num (g / q)) ∧
        (q = 0 → g = 0 → t.margin = PFloat.nan) ∧
        (q = 0 → ¬(g = 0) →
           t.margin = (if 0 < g then PFloat.inf else PFloat.neginf))) ∧
     (∃ qr qc qg qu : ℚ,
        (tablesOfRows [⟨some 0, Cell.numv 10, Cell.numv 4, Cell.na, Cell.na, Cell.na⟩]).summary =
          [("revenue", PFloat.num qr), ("cost", PFloat.num qc),
           ("gross_profit", PFloat.num qg),
           ("margin", if qr = 0 then PFloat.nan else PFloat.num (qg / qr)),
           ("units", PFloat.num qu),
           ("rows_loaded", PFloat.num (([⟨some 0, Cell.numv 10, Cell.numv 4, Cell.na, Cell.na, Cell.na⟩] : List FactRow).length : ℚ))])) :=
  ⟨buildTables_factDF _,
   margin_law_amended [⟨some 0, Cell.numv 10, Cell.numv 4, Cell.na, Cell.na, Cell.na⟩]
     (tablesOfRows [⟨some 0, Cell.numv 10, Cell.numv 4, Cell.na, Cell.na, Cell.na⟩])
     (buildTables_factDF _)⟩

/-- The two-row fact table refuting the margin law as stated: one
month whose revenues cancel to a (floating) zero total while costs do
not. -/
def marginCxRows : List FactRow :=
  [⟨some 0, Cell.numv 10, Cell.numv 2, Cell.na, Cell.na, Cell.na⟩,
   ⟨some 0, Cell.numv (-10), Cell.numv 2, Cell.na, Cell.na, Cell.na⟩]

/-- C1 counterexample: at `marginCxRows` the single Trends row has
aggregated revenue 0 and gross profit −4, and its margin is −infinity
— not null as the claim states, and infinite. -/
theorem margin_law_cx :
    (buildTables (factDF marginCxRows)).map
      (fun t => t.trends.map (fun r => (r.revenue, r.gross_profit, r.margin))) =
      Except.ok [(PFloat.num 0, PFloat.num (-4), PFloat.neginf)] ∧
    PFloat.neginf.isna = false ∧ ¬(PFloat.neginf = PFloat.nan) := by
  refine ⟨?_, rfl, by decide⟩
  have htr : trendsOf (prepOfRows marginCxRows) =
      [⟨some 23641, PFloat.num 0, PFloat.num 4, PFloat.num (-4), PFloat.num 0,
        PFloat.neginf⟩] := by
    have hkeys : monthKeys (prepOfRows marginCxRows).month = [some 23641] := by decide
    have hmk : monthKey 0 = 23641 := by decide
    unfold trendsOf
    rw [hkeys]
    norm_num [trendRowOf, groupedSum, prepOfRows, marginCxRows, PFloat.psum,
      PFloat.add, PFloat.sub, PFloat.neg, PFloat.isna, PFloat.div, toNumericCell,
      List.zip, List.zipWith, List.filterMap, dateCell, monthOfCell, hmk]
  rw [buildTables_factDF]
  show Except.ok ((trendsOf (prepOfRows marginCxRows)).map
    (fun r => (r.revenue, r.gross_profit, r.margin))) = _
  rw [htr]
  rfl

/-! ## Claim C10 — the cleaning stages do not mutate their inputs

A small object store models Python references: each cleaning function
receives a reference to the caller frame, performs its `df.copy()` as
a fresh allocation, and its in-place assignments as writes to the new
reference only — exactly the pattern of src/clean.py. -/

/-- A heap object: a DataFrame or an alias dict. -/
inductive Obj where
  | table : DF → Obj
  | dict : List (String × String) → Obj
deriving DecidableEq

/-- The object store: references are indices. -/
abbrev Store := List Obj

/-- Read a table at a reference. -/
def readTable (st : Store) (r : ℕ) : Option DF :=
  match st.get? r with
  | some (Obj.table t) => some t
  | _ => none

/-- Read an alias dict at a reference. -/
def readDict (st : Store) (r : ℕ) : Option (List (String × String)) :=
  match st.get? r with
  | some (Obj.dict d) => some d
  | _ => none

/-- Allocate a fresh object (`df.copy()`, `pd.DataFrame()`, ...). -/
def alloc (st : Store) (o : Obj) : Store × ℕ := (st ++ [o], st.length)

/-- Write an object in place at a reference (`df[...] = ...`,
`df.columns = ...`). -/
def write (st : Store) (r : ℕ) (o : Obj) : Store := st.set r o

/-- `standardise_columns` on the store: copy the frame, then assign
the snake-cased names in place on the copy. -/
def standardiseColumnsM (st : Store) (r : ℕ) : Option (Store × ℕ) :=
  match readTable st r with
  | none => none
  | some t =>
      let p := alloc st (Obj.table t)
      some (write p.1 p.2 (Obj.table (standardiseColumns t)), p.2)

/-- `apply_aliases` on the store: read the dict argument (if any) and
copy the frame; on the duplicate-free path the renamed frame is a
fresh object (`df.rename` allocates), while on the duplicate path the
exception escapes after the copy, leaving the store as it was plus the
dead copy — no pre-existing object is touched either way. -/
def applyAliasesM (st : Store) (r : ℕ) (alr : Option ℕ) :
    Option (Store × Except String ℕ) :=
  match readTable st r with
  | none => none
  | some t =>
      match alr with
      | some ar =>
          match readDict st ar with
          | none => none
          | some d =>
              let p := alloc st (Obj.table t)
              match applyAliases t (some d) with
              | Except.ok t₂ =>
                  let p₂ := alloc p.1 (Obj.table t₂)
                  some (p₂.1, Except.ok p₂.2)
              | Except.error e => some (p.1, Except.error e)
      | none =>
          let p := alloc st (Obj.table t)
          match applyAliases t none with
          | Except.ok t₂ =>
              let p₂ := alloc p.1 (Obj.table t₂)
              some (p₂.1, Except.ok p₂.2)
          | Except.error e => some (p.1, Except.error e)

/-- `coerce_types` on the store: copy the frame, then the three passes
write the date, string and numeric columns in place on the copy. -/
def coerceTypesM (gp : Cell → Option ℚ) (st : Store) (r : ℕ) :
    Option (Store × ℕ) :=
  match readTable st r with
  | none => none
  | some t =>
      let p := alloc st (Obj.table t)
      let st₂ := write p.1 p.2 (Obj.table ⟨t.nrows, dateStage gp t.cols⟩)
      let st₃ := write st₂ p.2 (Obj.table ⟨t.nrows, stringStage (dateStage gp t.cols)⟩)
      some (write st₃ p.2 (Obj.table (coerceTypes gp t)), p.2)

/-- `validate` on the store: reads only. -/
def validateM (st : Store) (r : ℕ) : Option (List String) :=
  (readTable st r).map validate

/-- `clean` on the store: the four stages in sequence; an exception
raised by the alias stage propagates, carrying the store at the point
of the raise. -/
def cleanM (gp : Cell → Option ℚ) (st : Store) (rdf : ℕ) (alr : Option ℕ) :
    Option (Store × Except String (ℕ × List String)) :=
  match standardiseColumnsM st rdf with
  | none => none
  | some (st₁, r₁) =>
      match applyAliasesM st₁ r₁ alr with
      | none => none
      | some (st₂, Except.error e) => some (st₂, Except.error e)
      | some (st₂, Except.ok r₂) =>
          match coerceTypesM gp st₂ r₂ with
          | none => none
          | some (st₃, r₃) =>
              match validateM st₃ r₃ with
              | none => none
              | some w => some (st₃, Except.ok (r₃, w))

theorem get?_of_readTable (st : Store) (r : ℕ) (t : DF)
    (h : readTable st r = some t) :
    st.get? r = some (Obj.table t) := by
  unfold readTable at h
  cases hg : st.get? r with
  | none => rw [hg] at h; cases h
  | some o =>
      rw [hg] at h
      cases o with
      | table t2 =>
          have : t2 = t := by simpa using h
          rw [this]
      | dict d => cases h

theorem lt_of_readTable (st : Store) (r : ℕ) (t : DF)
    (h : readTable st r = some t) : r < st.length :=
  (List.get?_eq_some.mp (get?_of_readTable st r t h)).1

theorem get?_of_readDict (st : Store) (r : ℕ) (d : List (String × String))
    (h : readDict st r = some d) :
    st.get? r = some (Obj.dict d) := by
  unfold readDict at h
  cases hg : st.get? r with
  | none => rw [hg] at h; cases h
  | some o =>
      rw [hg] at h
      cases o with
      | table t2 => cases h
      | dict d2 =>
          have : d2 = d := by simpa using h
          rw [this]

theorem lt_of_readDict (st : Store) (r : ℕ) (d : List (String × String))
    (h : readDict st r = some d) : r < st.length :=
  (List.get?_eq_some.mp (get?_of_readDict st r d h)).1

/-- Specification of the store-level `standardise_columns`: it
succeeds, touches no pre-existing reference, and leaves the pure
result at the fresh reference. -/
theorem standardiseColumnsM_spec (st : Store) (r : ℕ) (t : DF)
    (h : readTable st r = some t) :
    ∃ st' r', standardiseColumnsM st r = some (st', r') ∧
      (∀ q, q < st.length → st'.get? q = st.get? q) ∧
      st.length ≤ st'.length ∧
      readTable st' r' = some (standardiseColumns t) := by
  refine ⟨write (alloc st (Obj.table t)).1 (alloc st (Obj.table t)).2
    (Obj.table (standardiseColumns t)), st.length, ?_, ?_, ?_, ?_⟩
  · unfold standardiseColumnsM
    rw [h]
    rfl
  · intro q hq
    unfold write alloc
    rw [List.get?_set_ne _ _ (by omega), List.get?_append hq]
  · unfold write alloc
    rw [List.length_set, List.length_append]
    simp
  · unfold readTable write alloc
    rw [List.get?_set_eq_of_lt _ (by rw [List.length_append]; simp)]

theorem applyAliasesM_spec (st : Store) (r : ℕ) (t : DF)
    (h : readTable st r = some t) (alr : Option ℕ)
    (hd : ∀ ar, alr = some ar → ∃ d, readDict st ar = some d) :
    ∃ st' res, applyAliasesM st r alr = some (st', res) ∧
      (∀ q, q < st.length → st'.get? q = st.get? q) ∧
      st.length ≤ st'.length ∧
      (∀ e, applyAliases t (alr.bind (readDict st)) = Except.error e →
         res = Except.error e) ∧
      (∀ t₂, applyAliases t (alr.bind (readDict st)) = Except.ok t₂ →
         ∃ r', res = Except.ok r' ∧ readTable st' r' = some t₂) := by
  have hframe1 : ∀ (o : Obj) (q : ℕ), q < st.length →
      (st ++ [o]).get? q = st.get? q := by
    intro o q hq
    rw [List.get?_append hq]
  have hframe : ∀ (o₁ o₂ : Obj) (q : ℕ), q < st.length →
      (st ++ [o₁] ++ [o₂]).get? q = st.get? q := by
    intro o₁ o₂ q hq
    rw [List.get?_append (by rw [List.length_append]; omega),
        List.get?_append hq]
  have hread : ∀ (o₁ : Obj) (t₂ : DF),
      readTable (st ++ [o₁] ++ [Obj.table t₂]) (st ++ [o₁]).length = some t₂ := by
    intro o₁ t₂
    unfold readTable
    have hg : (st ++ [o₁] ++ [Obj.table t₂]).get? (st ++ [o₁]).length =
        some (Obj.table t₂) := by
      rw [List.get?_append_right (le_refl _)]
      simp
    rw [hg]
  cases alr with
  | none =>
      have hb : Option.bind (none : Option ℕ) (readDict st) =
          (none : Option (List (String × String))) := rfl
      cases happ : applyAliases t none with
      | error e =>
          refine ⟨st ++ [Obj.table t], Except.error e, ?_, ?_, ?_, ?_, ?_⟩
          · unfold applyAliasesM
            rw [h]
            show (match applyAliases t none with
                  | Except.ok t₂ =>
                      some ((st ++ [Obj.table t]) ++ [Obj.table t₂],
                            Except.ok (st ++ [Obj.table t]).length)
                  | Except.error e => some (st ++ [Obj.table t], Except.error e)) = _
            rw [happ]
          · exact fun q hq => hframe1 _ q hq
          · rw [List.length_append]
            omega
          · intro e' he'
            rw [hb, happ] at he'
            rw [Except.error.inj he']
          · intro t₂ ht₂
            rw [hb, happ] at ht₂
            exact Except.noConfusion ht₂
      | ok t₂ =>
          refine ⟨st ++ [Obj.table t] ++ [Obj.table t₂],
            Except.ok (st ++ [Obj.table t]).length, ?_, ?_, ?_, ?_, ?_⟩
          · unfold applyAliasesM
            rw [h]
            show (match applyAliases t none with
                  | Except.ok t₂ =>
                      some ((st ++ [Obj.table t]) ++ [Obj.table t₂],
                            Except.ok (st ++ [Obj.table t]).length)
                  | Except.error e => some (st ++ [Obj.table t], Except.error e)) = _
            rw [happ]
          · exact fun q hq => hframe _ _ q hq
          · rw [List.length_append, List.length_append]
            omega
          · intro e' he'
            rw [hb, happ] at he'
            exact Except.noConfusion he'
          · intro t₃ ht₃
            rw [hb, happ] at ht₃
            exact ⟨(st ++ [Obj.table t]).length, rfl,
              (hread _ _).trans (congrArg some (Except.ok.inj ht₃))⟩
  | some ar =>
      obtain ⟨d, hdr⟩ := hd ar rfl
      have hbind : Option.bind (some ar) (readDict st) = some d := hdr
      cases happ : applyAliases t (some d) with
      | error e =>
          refine ⟨st ++ [Obj.table t], Except.error e, ?_, ?_, ?_, ?_, ?_⟩
          · unfold applyAliasesM
            rw [h]
            show (match readDict st ar with
                  | none => none
                  | some d =>
                      match applyAliases t (some d) with
                      | Except.ok t₂ =>
                          some ((st ++ [Obj.table t]) ++ [Obj.table t₂],
                                Except.ok (st ++ [Obj.table t]).length)
                      | Except.error e =>
                          some (st ++ [Obj.table t], Except.error e)) = _
            rw [hdr]
            show (match applyAliases t (some d) with
                  | Except.ok t₂ =>
                      some ((st ++ [Obj.table t]) ++ [Obj.table t₂],
                            Except.ok (st ++ [Obj.table t]).length)
                  | Except.error e => some (st ++ [Obj.table t], Except.error e)) = _
            rw [happ]
          · exact fun q hq => hframe1 _ q hq
          · rw [List.length_append]
            omega
          · intro e' he'
            rw [hbind, happ] at he'
            rw [Except.error.inj he']
          · intro t₂ ht₂
            rw [hbind, happ] at ht₂
            exact Except.noConfusion ht₂
      | ok t₂ =>
          refine ⟨st ++ [Obj.table t] ++ [Obj.table t₂],
            Except.ok (st ++ [Obj.table t]).length, ?_, ?_, ?_, ?_, ?_⟩
          · unfold applyAliasesM
            rw [h]
            show (match readDict st ar with
                  | none => none
                  | some d =>
                      match applyAliases t (some d) with
                      | Except.ok t₂ =>
                          some ((st ++ [Obj.table t]) ++ [Obj.table t₂],
                                Except.ok (st ++ [Obj.table t]).length)
                      | Except.error e =>
                          some (st ++ [Obj.table t], Except.error e)) = _
            rw [hdr]
            show (match applyAliases t (some d) with
                  | Except.ok t₂ =>
                      some ((st ++ [Obj.table t]) ++ [Obj.table t₂],
                            Except.ok (st ++ [Obj.table t]).length)
                  | Except.error e => some (st ++ [Obj.table t], Except.error e)) = _
            rw [happ]
          · exact fun q hq => hframe _ _ q hq
          · rw [List.length_append, List.length_append]
            omega
          · intro e' he'
            rw [hbind, happ] at he'
            exact Except.noConfusion he'
          · intro t₃ ht₃
            rw [hbind, happ] at ht₃
            exact ⟨(st ++ [Obj.table t]).length, rfl,
              (hread _ _).trans (congrArg some (Except.ok.inj ht₃))⟩

theorem coerceTypesM_spec (gp : Cell → Option ℚ) (st : Store) (r : ℕ) (t : DF)
    (h : readTable st r = some t) :
    ∃ st' r', coerceTypesM gp st r = some (st', r') ∧
      (∀ q, q < st.length → st'.get? q = st.get? q) ∧
      st.length ≤ st'.length ∧
      readTable st' r' = some (coerceTypes gp t) := by
  refine ⟨write (write (write (alloc st (Obj.table t)).1 (alloc st (Obj.table t)).2
      (Obj.table ⟨t.nrows, dateStage gp t.cols⟩)) (alloc st (Obj.table t)).2
      (Obj.table ⟨t.nrows, stringStage (dateStage gp t.cols)⟩)) (alloc st (Obj.table t)).2
      (Obj.table (coerceTypes gp t)), st.length, ?_, ?_, ?_, ?_⟩
  · unfold coerceTypesM
    rw [h]
    rfl
  · intro q hq
    unfold write alloc
    rw [List.get?_set_ne _ _ (by omega), List.get?_set_ne _ _ (by omega),
        List.get?_set_ne _ _ (by omega), List.get?_append hq]
  · unfold write alloc
    rw [List.length_set, List.length_set, List.length_set, List.length_append]
    simp
  · unfold readTable write alloc
    rw [List.get?_set_eq_of_lt _ (by
      rw [List.length_set, List.length_set, List.length_append]
      simp)]

/-- C10: `clean` run on the store never writes to the reference
holding the caller's raw table nor to the supplied alias-dict
reference — each stage copies first — and the value and warnings it
returns are those of the pure pipeline. -/
theorem clean_no_mutation (gp : Cell → Option ℚ) (st : Store) (rdf : ℕ)
    (alr : Option ℕ) (t : DF) (ht : readTable st rdf = some t)
    (hd : ∀ ar, alr = some ar → ∃ d, readDict st ar = some d) :
    ∃ st' res, cleanM gp st rdf alr = some (st', res) ∧
      st'.get? rdf = st.get? rdf ∧
      (∀ ar, alr = some ar → st'.get? ar = st.get? ar) ∧
      (∀ e, clean gp t (alr.bind (readDict st)) = Except.error e →
         res = Except.error e) ∧
      (∀ cr : CleanResult, clean gp t (alr.bind (readDict st)) = Except.ok cr →
         ∃ r', res = Except.ok (r', cr.warnings) ∧
           readTable st' r' = some cr.df) := by
  have hrdf : rdf < st.length := lt_of_readTable st rdf t ht
  obtain ⟨st₁, r₁, h1, hf1, hl1, hv1⟩ := standardiseColumnsM_spec st rdf t ht
  have hd1 : ∀ ar, alr = some ar → ∃ d, readDict st₁ ar = some d := by
    intro ar har
    obtain ⟨d, hdr⟩ := hd ar har
    refine ⟨d, ?_⟩
    unfold readDict
    rw [hf1 ar (lt_of_readDict st ar d hdr)]
    exact get?_of_readDict st ar d hdr ▸ rfl
  have hdict_same : alr.bind (readDict st₁) = alr.bind (readDict st) := by
    cases alr with
    | none => rfl
    | some ar =>
        obtain ⟨d, hdr⟩ := hd ar rfl
        show readDict st₁ ar = readDict st ar
        unfold readDict
        rw [hf1 ar (lt_of_readDict st ar d hdr)]
  obtain ⟨st₂, res₂, h2, hf2, hl2, h2err, h2ok⟩ :=
    applyAliasesM_spec st₁ r₁ (standardiseColumns t) hv1 alr hd1
  cases happ : applyAliases (standardiseColumns t) (alr.bind (readDict st)) with
  | error e =>
      have happ1 : applyAliases (standardiseColumns t) (alr.bind (readDict st₁)) =
          Except.error e := by rw [hdict_same]; exact happ
      have hres₂ : res₂ = Except.error e := h2err e happ1
      have hclean : clean gp t (alr.bind (readDict st)) = Except.error e := by
        unfold clean
        rw [happ]
      refine ⟨st₂, Except.error e, ?_, ?_, ?_, ?_, ?_⟩
      · unfold cleanM
        rw [h1]
        show (match applyAliasesM st₁ r₁ alr with
              | none => none
              | some (st₂, Except.error e) => some (st₂, Except.error e)
              | some (st₂, Except.ok r₂) =>
                  match coerceTypesM gp st₂ r₂ with
                  | none => none
                  | some (st₃, r₃) =>
                      match validateM st₃ r₃ with
                      | none => none
                      | some w => some (st₃, Except.ok (r₃, w))) = _
        rw [hres₂] at h2
        rw [h2]
      · rw [hf2 rdf (lt_of_lt_of_le hrdf hl1), hf1 rdf hrdf]
      · intro ar har
        obtain ⟨d, hdr⟩ := hd ar har
        have har1 : ar < st.length := lt_of_readDict st ar d hdr
        rw [hf2 ar (lt_of_lt_of_le har1 hl1), hf1 ar har1]
      · intro e' he'
        rw [hclean] at he'
        rw [Except.error.inj he']
      · intro cr hcr
        rw [hclean] at hcr
        exact Except.noConfusion hcr
  | ok t₂ =>
      have happ1 : applyAliases (standardiseColumns t) (alr.bind (readDict st₁)) =
          Except.ok t₂ := by rw [hdict_same]; exact happ
      obtain ⟨r₂, hres₂, hv2⟩ := h2ok t₂ happ1
      obtain ⟨st₃, r₃, h3, hf3, hl3, hv3⟩ := coerceTypesM_spec gp st₂ r₂ t₂ hv2
      have hclean : clean gp t (alr.bind (readDict st)) =
          Except.ok ⟨coerceTypes gp t₂, validate (coerceTypes gp t₂)⟩ := by
        unfold clean
        rw [happ]
      refine ⟨st₃, Except.ok (r₃, validate (coerceTypes gp t₂)), ?_, ?_, ?_, ?_, ?_⟩
      · unfold cleanM
        rw [h1]
        show (match applyAliasesM st₁ r₁ alr with
              | none => none
              | some (st₂, Except.error e) => some (st₂, Except.error e)
              | some (st₂, Except.ok r₂) =>
                  match coerceTypesM gp st₂ r₂ with
                  | none => none
                  | some (st₃, r₃) =>
                      match validateM st₃ r₃ with
                      | none => none
                      | some w => some (st₃, Except.ok (r₃, w))) = _
        rw [hres₂] at h2
        rw [h2]
        show (match coerceTypesM gp st₂ r₂ with
              | none => none
              | some (st₃, r₃) =>
                  match validateM st₃ r₃ with
                  | none => none
                  | some w => some (st₃, Except.ok (r₃, w))) = _
        rw [h3]
        show (match validateM st₃ r₃ with
              | none => none
              | some w => some (st₃, Except.ok (r₃, w))) = _
        unfold validateM
        rw [hv3]
        rfl
      · rw [hf3 rdf (lt_of_lt_of_le hrdf (le_trans hl1 hl2)),
            hf2 rdf (lt_of_lt_of_le hrdf hl1), hf1 rdf hrdf]
      · intro ar har
        obtain ⟨d, hdr⟩ := hd ar har
        have har1 : ar < st.length := lt_of_readDict st ar d hdr
        rw [hf3 ar (lt_of_lt_of_le har1 (le_trans hl1 hl2)),
            hf2 ar (lt_of_lt_of_le har1 hl1), hf1 ar har1]
      · intro e' he'
        rw [hclean] at he'
        exact Except.noConfusion he'
      · intro cr hcr
        rw [hclean] at hcr
        have hcr2 := Except.ok.inj hcr
        refine ⟨r₃, ?_, ?_⟩
        · rw [← hcr2]
        · rw [← hcr2]
          exact hv3

/-- C10 witness: the no-mutation law at a concrete two-object store
(one raw table, one alias dict), which takes the duplicate-free
success path. -/
theorem clean_no_mutation_witness :
    readTable [Obj.table ⟨1, [("Sales", [Cell.numv 7])]⟩,
               Obj.dict [("sales", "revenue")]] 0 =
      some ⟨1, [("Sales", [Cell.numv 7])]⟩ ∧
    (∃ st' res,
      cleanM (fun _ => none)
          [Obj.table ⟨1, [("Sales", [Cell.numv 7])]⟩,
           Obj.dict [("sales", "revenue")]] 0 (some 1) = some (st', res) ∧
      st'.get? 0 =
        (([Obj.table ⟨1, [("Sales", [Cell.numv 7])]⟩,
           Obj.dict [("sales", "revenue")]] : Store)).get? 0 ∧
      (∀ ar, (some 1 : Option ℕ) = some ar →
        st'.get? ar =
          (([Obj.table ⟨1, [("Sales", [Cell.numv 7])]⟩,
             Obj.dict [("sales", "revenue")]] : Store)).get? ar) ∧
      (∀ e, clean (fun _ => none) ⟨1, [("Sales", [Cell.numv 7])]⟩
          ((some 1).bind (readDict
            [Obj.table ⟨1, [("Sales", [Cell.numv 7])]⟩,
             Obj.dict [("sales", "revenue")]])) = Except.error e →
        res = Except.error e) ∧
      (∀ cr : CleanResult, clean (fun _ => none) ⟨1, [("Sales", [Cell.numv 7])]⟩
          ((some 1).bind (readDict
            [Obj.table ⟨1, [("Sales", [Cell.numv 7])]⟩,
             Obj.dict [("sales", "revenue")]])) = Except.ok cr →
        ∃ r', res = Except.ok (r', cr.warnings) ∧
          readTable st' r' = some cr.df)) :=
  ⟨rfl,
   clean_no_mutation (fun _ => none)
     [Obj.table ⟨1, [("Sales", [Cell.numv 7])]⟩, Obj.dict [("sales", "revenue")]]
     0 (some 1) ⟨1, [("Sales", [Cell.numv 7])]⟩ rfl
     (fun ar har => ⟨[("sales", "revenue")], by
        have : ar = 1 := by simpa using har.symm
        rw [this]
        rfl⟩)⟩

end AnalystReporting
